import Mathlib

/-!
Verification development for the `monthlystatusreports` repository.

The repository copies timesheet hours (from a TSheets CSV export or the
TSheets API) into fixed cell locations of pre-formatted spreadsheet
reports (MSRs).  The definitions below are a shallow embedding of the
Python sources:

  * `src/utils/timesheet_parser.py` - CSV / API aggregation into an
    employee -> charge-code -> hours mapping,
  * `src/utils/date_finder.py`     - period parsing and the month-mode
    column locator,
  * `src/agents/to1_updater.py`, `to8_updater.py`, `to6_updater.py` -
    per-report updaters,
  * `src/update_msrs.py`           - the orchestrator,
  * `src/agents/wsr_updater.py`    - the week-mode locator and the
    monthly roll-up.

Machine floats of the Python code are modelled as exact rationals, Python
dicts as association lists with Python's insert-or-replace semantics, and
exceptions as `Option`/`Except` results.
-/

/-! ## Python dictionaries as association lists -/

/-- Python `d.get(k)` / `d[k]`: value of the first entry with the given key. -/
def dictGet? {κ α : Type} [DecidableEq κ] : List (κ × α) → κ → Option α
  | [], _ => none
  | (k, a) :: rest, key => if k = key then some a else dictGet? rest key

/-- Python `d[k] = v`: replace the value of an existing key in place, else
append a new entry (CPython dicts keep first-insertion order). -/
def dictSet {κ α : Type} [DecidableEq κ] : List (κ × α) → κ → α → List (κ × α)
  | [], key, v => [(key, v)]
  | (k, a) :: rest, key, v =>
      if k = key then (k, v) :: rest else (k, a) :: dictSet rest key v

theorem dictGet?_dictSet_self {κ α : Type} [DecidableEq κ]
    (m : List (κ × α)) (k : κ) (v : α) : dictGet? (dictSet m k v) k = some v := by
  induction m with
  | nil => simp [dictSet, dictGet?]
  | cons p rest ih =>
      obtain ⟨k₀, a₀⟩ := p
      by_cases h : k₀ = k <;> simp [dictSet, dictGet?, h, ih]

theorem dictGet?_dictSet_ne {κ α : Type} [DecidableEq κ]
    (m : List (κ × α)) (k k' : κ) (v : α) (h : k ≠ k') :
    dictGet? (dictSet m k v) k' = dictGet? m k' := by
  induction m with
  | nil => simp [dictSet, dictGet?, h]
  | cons p rest ih =>
      obtain ⟨k₀, a₀⟩ := p
      by_cases h₀ : k₀ = k
      · subst h₀; simp [dictSet, dictGet?, h]
      · simp [dictSet, dictGet?, h₀, ih]

/-! ## Aggregated hours

`src/utils/timesheet_parser.py` builds `defaultdict(lambda: defaultdict(float))`
mapping employee name -> charge code -> hours.  `updateCode`/`addHours` model
`employees[name][charge_code] += hours` on that nested dictionary (the nested
defaultdict creates missing keys with value `0.0` before adding). -/

/-- Inner dictionary: charge code -> hours. -/
abbrev CodeMap := List (String × ℚ)

/-- Outer dictionary: employee name -> charge code -> hours. -/
abbrev AggMap := List (String × CodeMap)

/-- `inner[charge_code] += h` on a `defaultdict(float)`. -/
def updateCode : CodeMap → String → ℚ → CodeMap
  | [], code, h => [(code, h)]
  | (c, v) :: rest, code, h =>
      if c = code then (c, v + h) :: rest else (c, v) :: updateCode rest code h

/-- `employees[name][code] += h` on the nested defaultdict. -/
def addHours : AggMap → String → String → ℚ → AggMap
  | [], name, code, h => [(name, [(code, h)])]
  | (n, cm) :: rest, name, code, h =>
      if n = name then (n, updateCode cm code h) :: rest
      else (n, cm) :: addHours rest name code h

/-- Lookup of a charge code in the inner dictionary. -/
def lookupCode : CodeMap → String → Option ℚ
  | [], _ => none
  | (c, v) :: rest, code => if c = code then some v else lookupCode rest code

/-- Lookup of an employee in the aggregated mapping. -/
def lookupEmp : AggMap → String → Option CodeMap
  | [], _ => none
  | (n, cm) :: rest, name => if n = name then some cm else lookupEmp rest name

/-- Hours recorded for an (employee, charge code) pair, if any. -/
def lookup2 (m : AggMap) (name code : String) : Option ℚ :=
  match lookupEmp m name with
  | none => none
  | some cm => lookupCode cm code

/-- Hours for an (employee, charge code) pair, defaulting to `0.0` -
`timesheet_data.get(emp_name, {})` followed by `emp_hours.get(charge_code, 0.0)`. -/
def lookupHours (m : AggMap) (name code : String) : ℚ :=
  (lookupCode ((lookupEmp m name).getD []) code).getD 0

/-! ## The generic accumulation step

Both aggregation loops in `timesheet_parser.py` have the shape: derive an
optional `(employee, charge_code, hours)` triple from a raw record, skipping
the record entirely when a filter rejects it, and otherwise accumulate with
`employees[name][code] += hours`.  `pstep` captures that shape, parameterised
by the per-record extractor. -/

/-- One iteration of an aggregation loop with extractor `f`. -/
def pstep {α : Type} (f : α → Option (String × String × ℚ)) (acc : AggMap) (r : α) : AggMap :=
  match f r with
  | none => acc
  | some (n, c, h) => addHours acc n c h

/-- Contribution of one record to the cell (name, code) of the result. -/
def contrib {α : Type} (f : α → Option (String × String × ℚ)) (name code : String) (r : α) : ℚ :=
  match f r with
  | none => 0
  | some (n, c, h) => if n = name ∧ c = code then h else 0

/-- Whether a record passes the filters and lands in the cell (name, code). -/
def hits {α : Type} (f : α → Option (String × String × ℚ)) (name code : String) (r : α) : Bool :=
  match f r with
  | none => false
  | some (n, c, _) => n = name ∧ c = code

/-- Whether a record passes the filters and belongs to the given employee. -/
def hitsEmp {α : Type} (f : α → Option (String × String × ℚ)) (name : String) (r : α) : Bool :=
  match f r with
  | none => false
  | some (n, _, _) => n = name

theorem lookupCode_updateCode_self (m : CodeMap) (c : String) (h : ℚ) :
    lookupCode (updateCode m c h) c = some ((lookupCode m c).getD 0 + h) := by
  induction m with
  | nil => simp [updateCode, lookupCode]
  | cons p rest ih =>
      obtain ⟨c₀, v₀⟩ := p
      by_cases hc : c₀ = c <;> simp [updateCode, lookupCode, hc, ih]

theorem lookupCode_updateCode_ne (m : CodeMap) (c c' : String) (h : ℚ) (hne : c' ≠ c) :
    lookupCode (updateCode m c h) c' = lookupCode m c' := by
  induction m with
  | nil => simp [updateCode, lookupCode, Ne.symm hne]
  | cons p rest ih =>
      obtain ⟨c₀, v₀⟩ := p
      by_cases hc : c₀ = c
      · subst hc; simp [updateCode, lookupCode, Ne.symm hne]
      · simp [updateCode, lookupCode, hc, ih]

theorem lookupEmp_addHours_self (m : AggMap) (n c : String) (h : ℚ) :
    lookupEmp (addHours m n c h) n =
      some (updateCode ((lookupEmp m n).getD []) c h) := by
  induction m with
  | nil => simp [addHours, lookupEmp, updateCode]
  | cons p rest ih =>
      obtain ⟨n₀, cm₀⟩ := p
      by_cases hn : n₀ = n <;> simp [addHours, lookupEmp, hn, ih]

theorem lookupEmp_addHours_ne (m : AggMap) (n n' c : String) (h : ℚ) (hne : n' ≠ n) :
    lookupEmp (addHours m n c h) n' = lookupEmp m n' := by
  induction m with
  | nil => simp [addHours, lookupEmp, Ne.symm hne]
  | cons p rest ih =>
      obtain ⟨n₀, cm₀⟩ := p
      by_cases hn : n₀ = n
      · subst hn; simp [addHours, lookupEmp, Ne.symm hne]
      · simp [addHours, lookupEmp, hn, ih]

theorem lookup2_addHours_self (m : AggMap) (n c : String) (h : ℚ) :
    lookup2 (addHours m n c h) n c = some ((lookup2 m n c).getD 0 + h) := by
  unfold lookup2
  rw [lookupEmp_addHours_self]
  cases hm : lookupEmp m n with
  | none => simp [lookupCode_updateCode_self, lookupCode]
  | some cm => simp [lookupCode_updateCode_self]

theorem lookup2_addHours_ne (m : AggMap) (n n' c c' : String) (h : ℚ)
    (hne : ¬(n = n' ∧ c = c')) : lookup2 (addHours m n c h) n' c' = lookup2 m n' c' := by
  unfold lookup2
  by_cases hn : n' = n
  · subst hn
    rw [lookupEmp_addHours_self]
    have hc : c' ≠ c := by
      intro hcc; exact hne ⟨rfl, hcc.symm⟩
    cases hm : lookupEmp m n' with
    | none => simp [lookupCode_updateCode_ne _ _ _ _ hc, lookupCode, Ne.symm hc]
    | some cm => simp [lookupCode_updateCode_ne _ _ _ _ hc]
  · rw [lookupEmp_addHours_ne _ _ _ _ _ hn]

/-- The running fold over records, characterised cell by cell. -/
theorem lookup2_foldl_pstep {α : Type} (f : α → Option (String × String × ℚ))
    (rows : List α) : ∀ (acc : AggMap) (name code : String),
    lookup2 (rows.foldl (pstep f) acc) name code =
      if rows.any (hits f name code) ∨ (lookup2 acc name code).isSome then
        some ((lookup2 acc name code).getD 0 + (rows.map (contrib f name code)).sum)
      else none := by
  induction rows with
  | nil =>
      intro acc name code
      cases h : lookup2 acc name code <;> simp [h]
  | cons r rest ih =>
      intro acc name code
      simp only [List.foldl_cons, List.any_cons, List.map_cons, List.sum_cons]
      cases hf : f r with
      | none =>
          rw [ih]
          simp [pstep, hf, hits, contrib]
      | some t =>
          obtain ⟨n, c, h⟩ := t
          by_cases hcell : n = name ∧ c = code
          · obtain ⟨hn, hc⟩ := hcell
            subst hn; subst hc
            rw [ih]
            simp only [pstep, hf, hits, contrib]
            rw [lookup2_addHours_self]
            cases hacc : lookup2 acc n c
            · simp [hacc]
            · simp [hacc]; ring
          · rw [ih]
            simp only [pstep, hf, hits, contrib]
            rw [lookup2_addHours_ne _ _ _ _ _ _ hcell]
            have : (decide (n = name ∧ c = code)) = false := by
              simpa using hcell
            simp [this, hcell]

/-- Employee presence through the fold. -/
theorem lookupEmp_foldl_pstep {α : Type} (f : α → Option (String × String × ℚ))
    (rows : List α) : ∀ (acc : AggMap) (name : String),
    (lookupEmp (rows.foldl (pstep f) acc) name).isSome =
      (rows.any (hitsEmp f name) || (lookupEmp acc name).isSome) := by
  induction rows with
  | nil => intro acc name; simp
  | cons r rest ih =>
      intro acc name
      simp only [List.foldl_cons, List.any_cons]
      cases hf : f r with
      | none =>
          rw [ih]; simp [pstep, hf, hitsEmp]
      | some t =>
          obtain ⟨n, c, h⟩ := t
          by_cases hn : n = name
          · subst hn
            rw [ih]
            simp [pstep, hf, hitsEmp, lookupEmp_addHours_self]
          · rw [ih]
            simp [pstep, hf, hitsEmp, lookupEmp_addHours_ne _ _ _ _ _ (Ne.symm hn), hn]

/-- Cell-level characterisation of a whole aggregation run. -/
theorem lookup2_agg {α : Type} (f : α → Option (String × String × ℚ)) (rows : List α)
    (name code : String) :
    lookup2 (rows.foldl (pstep f) []) name code =
      if rows.any (hits f name code) then some ((rows.map (contrib f name code)).sum)
      else none := by
  rw [lookup2_foldl_pstep]
  simp [lookup2, lookupEmp]

/-- Presence-level characterisation of a whole aggregation run. -/
theorem lookupEmp_agg {α : Type} (f : α → Option (String × String × ℚ)) (rows : List α)
    (name : String) :
    (lookupEmp (rows.foldl (pstep f) []) name).isSome = rows.any (hitsEmp f name) := by
  rw [lookupEmp_foldl_pstep]
  simp [lookupEmp]

/-! ## Python string helpers -/

/-- Python `str.strip()`: drop whitespace from both ends (char-level model). -/
def pyStrip (cs : List Char) : List Char :=
  ((cs.dropWhile Char.isWhitespace).reverse.dropWhile Char.isWhitespace).reverse

/-- `str.strip()` lifted back to `String`. -/
def pyStripStr (s : String) : String :=
  String.mk (pyStrip s.data)

/-- Does `pat` occur at the head of `s`?  (used to model substring search). -/
def startsWithList : List Char → List Char → Bool
  | [], _ => true
  | _ :: _, [] => false
  | a :: as, b :: bs => a = b && startsWithList as bs

/-- Python `pat in s` on strings: substring containment, char-level. -/
def containsSub (pat : List Char) : List Char → Bool
  | [] => startsWithList pat []
  | c :: rest => startsWithList pat (c :: rest) || containsSub pat rest

/-! ## CSV aggregation (`parse_timesheet_csv`, timesheet_parser.py lines 118-164) -/

/-- One CSV row of the timesheet export.  `hours` is the parsed float field;
the source treats a missing or empty `hours` field as `0.0`, which is the
caller's concern here (a row with no hours carries `hours = 0`). -/
structure CsvRow where
  fname : String
  lname : String
  hours : ℚ
  jobcode_1 : String
  jobcode_2 : String

/-- The per-row filter and field extraction of `parse_timesheet_csv`:
name is `f"{fname} {lname}"`, rows whose stripped `jobcode_1` is `PTO` or
`Holiday` are skipped, the charge code is the stripped `jobcode_2` when
non-empty else the stripped `jobcode_1`, and the row counts only when the
charge code is non-empty and hours are positive. -/
def csvExtract (r : CsvRow) : Option (String × String × ℚ) :=
  let name := r.fname ++ " " ++ r.lname
  let jc2 := pyStripStr r.jobcode_2
  let jc1 := pyStripStr r.jobcode_1
  if jc1 = "PTO" ∨ jc1 = "Holiday" then none
  else
    let chargeCode := if jc2 ≠ "" then jc2 else jc1
    if chargeCode ≠ "" ∧ 0 < r.hours then some (name, chargeCode, r.hours) else none

/-- `parse_timesheet_csv` over the already-read CSV rows (file I/O is the
caller's concern; the function folds the accumulation loop over the rows). -/
def parse_timesheet_csv (rows : List CsvRow) : AggMap :=
  rows.foldl (pstep csvExtract) []

/-! ## API aggregation (`get_tsheets_timesheets`, timesheet_parser.py lines 22-95) -/

/-- One timesheet record of the TSheets API response: a user id (string key),
a jobcode id and a duration in seconds (`ts.get('duration', 0)`). -/
structure TsEntry where
  user_id : String
  jobcode_id : Nat
  duration : Int

/-- The per-record filter of the API aggregation loop: records of unmapped
users are skipped, the jobcode name defaults to `''` when the id is unknown,
names in the skip set (`config.get('skip_jobcodes', ['PTO', 'Holiday'])`) are
skipped, seconds convert to hours, and the record counts only when the
jobcode name is non-empty and hours are positive. -/
def tsExtract (users : List (String × String)) (jobcodes : List (Nat × String))
    (skips : List String) (ts : TsEntry) : Option (String × String × ℚ) :=
  match dictGet? users ts.user_id with
  | none => none
  | some empName =>
      let jcName := (dictGet? jobcodes ts.jobcode_id).getD ""
      if jcName ∈ skips then none
      else
        let hours : ℚ := (ts.duration : ℚ) / 3600
        if jcName ≠ "" ∧ 0 < hours then some (empName, jcName, hours) else none

/-- The aggregation loop of `get_tsheets_timesheets`.  The two HTTP fetches
are modelled by the `jobcodes` map and the `tss` records parameter; `users`
and `skips` come from the loaded configuration. -/
def get_tsheets_timesheets (users : List (String × String)) (jobcodes : List (Nat × String))
    (skips : List String) (tss : List TsEntry) : AggMap :=
  tss.foldl (pstep (tsExtract users jobcodes skips)) []

/-! ## Worksheets and cell values

A worksheet cell value, as seen through openpyxl / xlwings: empty (`None`),
a text, a number, or a datetime (only the calendar fields matter here).
A sheet carries cell values, an opaque fill per cell, and openpyxl's
`max_column` bound used by `find_month_column`. -/

/-- A spreadsheet cell value. -/
inductive CellValue : Type
  | vNone : CellValue
  | vStr : String → CellValue
  | vNum : ℚ → CellValue
  | vDate : Nat → Nat → Nat → CellValue
deriving DecidableEq

/-- Python truthiness of a cell value (`if cell_value:` / `x or y`). -/
def truthy : CellValue → Bool
  | .vNone => false
  | .vStr s => s ≠ ""
  | .vNum q => q ≠ 0
  | .vDate _ _ _ => true

/-- Python `str(cell_value)` as used by the week locator's substring tests.
Week headers are text cells; the rendering of numeric and datetime cells is
not needed by any claim and is modelled as the empty string. -/
def cellStr : CellValue → String
  | .vNone => "None"
  | .vStr s => s
  | .vNum _ => ""
  | .vDate _ _ _ => ""

/-- Python `float(v)` as applied by the roll-up to `cell.value or 0`:
`None` is replaced by `0` by the `or`, numbers convert to themselves, the
empty string is falsy and is replaced by `0`, and any other value makes
`float` raise (numeric text cells are not produced by these sheets). -/
def pyFloatCell : CellValue → Option ℚ
  | .vNone => some 0
  | .vNum q => some q
  | .vStr s => if s = "" then some 0 else none
  | .vDate _ _ _ => none

/-- An opaque cell fill: openpyxl's `fill_type` is `None`/`'none'` for an
unfilled cell and a pattern with a colour otherwise; `copy.copy` of a fill
is the same fill value. -/
inductive FillVal : Type
  | emptyFill : FillVal
  | solid : String → FillVal
deriving DecidableEq

/-- The condition `prev_fill.fill_type and prev_fill.fill_type != 'none'`
of `to8_updater.py`. -/
def fillUsable : FillVal → Bool
  | .emptyFill => false
  | .solid _ => true

/-- A worksheet: cell values and fills indexed by (row, column), and the
`max_column` bound reported by openpyxl. -/
structure Sheet where
  maxColumn : Nat
  val : Nat → Nat → CellValue
  fill : Nat → Nat → FillVal

/-- `ws.cell(row=r, column=c).value = v`. -/
def Sheet.setVal (ws : Sheet) (r c : Nat) (v : CellValue) : Sheet :=
  { ws with val := fun r' c' => if r' = r ∧ c' = c then v else ws.val r' c' }

/-- `ws.cell(row=r, column=c).fill = f`. -/
def Sheet.setFill (ws : Sheet) (r c : Nat) (f : FillVal) : Sheet :=
  { ws with fill := fun r' c' => if r' = r ∧ c' = c then f else ws.fill r' c' }

/-! ## Month-mode column locator (`find_month_column`, date_finder.py lines 57-79) -/

/-- Scan columns `1 .. max_column` of the date-header row, returning the
first column whose cell is a datetime with the target year and month. -/
def find_month_column (ws : Sheet) (dateHeaderRow targetYear targetMonth : Nat) : Option Nat :=
  (List.range' 1 ws.maxColumn).findSome? fun col =>
    match ws.val dateHeaderRow col with
    | .vDate y m _ => if y = targetYear ∧ m = targetMonth then some col else none
    | _ => none

/-! ## Period parsing (`parse_month_input`, date_finder.py lines 11-54)

The source strips the input, then
  1. tries the regex `([A-Za-z]+)-(\d{2})` with `re.match` (a PREFIX match:
     trailing characters after the two digits are ignored).  On a regex hit
     the letters go through `strptime(month_name, '%b')`, whose failure
     propagates out of the function (the remaining formats are not tried);
  2. tries `strptime(month_str, '%B %Y')` (full month name, case-insensitive,
     any run of whitespace, exactly four year digits, full consumption);
  3. tries `strptime(month_str, '%Y-%m')` (exactly four year digits, `-`,
     month regex `1[0-2]|0[1-9]|[1-9]`, full consumption);
and raises `ValueError` when all fail.  Failure is modelled as `none`. -/

/-- Lower-cased abbreviated month names recognised by `strptime('%b')`. -/
def monthAbbrevLower : List (List Char) :=
  [['j','a','n'], ['f','e','b'], ['m','a','r'], ['a','p','r'], ['m','a','y'],
   ['j','u','n'], ['j','u','l'], ['a','u','g'], ['s','e','p'], ['o','c','t'],
   ['n','o','v'], ['d','e','c']]

/-- Lower-cased full month names recognised by `strptime('%B')`. -/
def monthFullLower : List (List Char) :=
  [['j','a','n','u','a','r','y'], ['f','e','b','r','u','a','r','y'],
   ['m','a','r','c','h'], ['a','p','r','i','l'], ['m','a','y'],
   ['j','u','n','e'], ['j','u','l','y'], ['a','u','g','u','s','t'],
   ['s','e','p','t','e','m','b','e','r'], ['o','c','t','o','b','e','r'],
   ['n','o','v','e','m','b','e','r'], ['d','e','c','e','m','b','e','r']]

/-- Month number (1-12) of a name in the given table, compared
case-insensitively; `none` models the `ValueError` of `strptime`. -/
def monthFromTable (table : List (List Char)) (cs : List Char) : Option Nat :=
  (table.findIdx? fun nm => nm = cs.map Char.toLower).map (· + 1)

/-- Numeric value of a digit character. -/
def digitVal (c : Char) : Nat := c.toNat - 48

/-- Step 1, the `([A-Za-z]+)-(\d{2})` prefix regex plus `strptime('%b')`.
`none`: the regex did not match and the next format is tried.
`some r`: the regex matched and `r` is the final outcome of the function. -/
def tryMonYY (cs : List Char) : Option (Option (Nat × Nat)) :=
  let letters := cs.takeWhile Char.isAlpha
  let rest := cs.dropWhile Char.isAlpha
  match letters, rest with
  | _ :: _, '-' :: d1 :: d2 :: _ =>
      if d1.isDigit ∧ d2.isDigit then
        some (match monthFromTable monthAbbrevLower letters with
          | some m => some (2000 + (10 * digitVal d1 + digitVal d2), m)
          | none => none)
      else none
  | _, _ => none

/-- Step 2, `strptime(month_str, '%B %Y')`. -/
def tryMonthYYYY (cs : List Char) : Option (Nat × Nat) :=
  let letters := cs.takeWhile Char.isAlpha
  let rest := cs.dropWhile Char.isAlpha
  let ws := rest.takeWhile Char.isWhitespace
  let digits := rest.dropWhile Char.isWhitespace
  match monthFromTable monthFullLower letters with
  | none => none
  | some m =>
      match ws, digits with
      | [], _ => none
      | _ :: _, [y1, y2, y3, y4] =>
          if y1.isDigit ∧ y2.isDigit ∧ y3.isDigit ∧ y4.isDigit then
            some (1000 * digitVal y1 + 100 * digitVal y2 + 10 * digitVal y3 + digitVal y4, m)
          else none
      | _ :: _, _ => none

/-- Step 3, `strptime(month_str, '%Y-%m')`; the `%m` regex accepts a
one-digit month `1`-`9`, `0` followed by `1`-`9`, or `1` followed by `0`-`2`. -/
def tryYYYYMM (cs : List Char) : Option (Nat × Nat) :=
  match cs with
  | [y1, y2, y3, y4, '-', m1] =>
      if y1.isDigit ∧ y2.isDigit ∧ y3.isDigit ∧ y4.isDigit ∧ '1' ≤ m1 ∧ m1 ≤ '9' then
        some (1000 * digitVal y1 + 100 * digitVal y2 + 10 * digitVal y3 + digitVal y4, digitVal m1)
      else none
  | [y1, y2, y3, y4, '-', m1, m2] =>
      if y1.isDigit ∧ y2.isDigit ∧ y3.isDigit ∧ y4.isDigit then
        if m1 = '0' ∧ '1' ≤ m2 ∧ m2 ≤ '9' then
          some (1000 * digitVal y1 + 100 * digitVal y2 + 10 * digitVal y3 + digitVal y4, digitVal m2)
        else if m1 = '1' ∧ '0' ≤ m2 ∧ m2 ≤ '2' then
          some (1000 * digitVal y1 + 100 * digitVal y2 + 10 * digitVal y3 + digitVal y4,
            10 + digitVal m2)
        else none
      else none
  | _ => none

/-- `parse_month_input` on the stripped character list. -/
def parseMonthChars (cs0 : List Char) : Option (Nat × Nat) :=
  let cs := pyStrip cs0
  match tryMonYY cs with
  | some r => r
  | none =>
      match tryMonthYYYY cs with
      | some r => some r
      | none => tryYYYYMM cs

/-- `parse_month_input(month_str)`: `(year, month)` on success, `none` for
a raised `ValueError`. -/
def parse_month_input (s : String) : Option (Nat × Nat) :=
  parseMonthChars s.data

/-! ## Week-mode column locator (`find_week_column`, wsr_updater.py lines 133-144)

The source scans the HARDCODED column range `range(100, 200)` of header row 3
for a truthy cell whose text contains the week label.  On a hit it looks
ahead up to 10 columns for a `Total` cell also containing the year, but both
the confirmed and the unconfirmed branch return the same column. -/

/-- The look-ahead over `range(col, col + 10)` for a `Total` cell containing
the year. -/
def weekYearConfirm (sheet : Sheet) (year : Nat) (col : Nat) : Option Nat :=
  (List.range' col 10).findSome? fun checkCol =>
    let cv := sheet.val 3 checkCol
    if truthy cv ∧ containsSub "Total".data (cellStr cv).data ∧
        containsSub (toString year).data (cellStr cv).data then
      some col
    else none

/-- `find_week_column(sheet, week_label, year)`. -/
def find_week_column (sheet : Sheet) (weekLabel : String) (year : Nat) : Option Nat :=
  (List.range' 100 100).findSome? fun col =>
    let cv := sheet.val 3 col
    if truthy cv ∧ containsSub weekLabel.data (cellStr cv).data then
      match weekYearConfirm sheet year col with
      | some c => some c
      | none => some col
    else none

/-! ## Monthly roll-up (`rollup_monthly`, wsr_updater.py lines 302-435)

The xlwings workbook I/O is modelled by passing the two sheets in and out.
The list of week labels is `format_week_label` applied to
`get_weeks_in_month(year, month)` in the source - pure calendar arithmetic
on the target month - and is taken as a parameter here, so every statement
below holds for the actual label list of any month. -/

/-- Per-employee data captured from rows 4-6 of `CLIN Level Detail`. -/
structure EmpData where
  row : Nat
  position : CellValue
  clin : CellValue
  detail : CellValue
  rate : CellValue
  wbs : CellValue
  charge_no : CellValue
deriving DecidableEq

/-- The `employees` dictionary of `rollup_monthly`: rows 4-6, keyed by the
column-B cell, skipping falsy names and the literal header `"Employee"`. -/
def buildEmployees (clin : Sheet) : List (CellValue × EmpData) :=
  [4, 5, 6].foldl
    (fun d row =>
      let nm := clin.val row 2
      if truthy nm ∧ nm ≠ .vStr "Employee" then
        dictSet d nm
          ⟨row, clin.val row 1, clin.val row 3, clin.val row 4,
            clin.val row 5, clin.val row 6, clin.val row 14⟩
      else d)
    []

/-- One employee of one Actual week:
`monthly_hours[emp_name] += float(clin_sheet.cells(row, col).value or 0)`.
A failing `float` conversion raises, modelled as `none`. -/
def weekAdd (clin : Sheet) (col : Nat) (m : List (CellValue × ℚ))
    (p : CellValue × EmpData) : Option (List (CellValue × ℚ)) :=
  match pyFloatCell (clin.val p.2.row col) with
  | none => none
  | some q => some (dictSet m p.1 ((dictGet? m p.1).getD 0 + q))

/-- One week of the summation loop: locate the week column, check the status
cell of row 2 against `"Actual"`, and add every employee's cell. -/
def processWeek (clin : Sheet) (year : Nat) (emps : List (CellValue × EmpData))
    (mh : List (CellValue × ℚ)) (lbl : String) : Option (List (CellValue × ℚ)) :=
  match find_week_column clin lbl year with
  | none => some mh
  | some col =>
      if clin.val 2 col = .vStr "Actual" then
        emps.foldlM (weekAdd clin col) mh
      else some mh

/-- The whole `monthly_hours` computation: a zero-initialised dictionary over
the employees, folded over the week labels of the month. -/
def computeMonthlyHours (clin : Sheet) (year : Nat) (emps : List (CellValue × EmpData))
    (labels : List String) : Option (List (CellValue × ℚ)) :=
  labels.foldlM (processWeek clin year emps) (emps.map fun p => (p.1, (0 : ℚ)))

/-- The week columns that are found by the locator and whose status cell is
`"Actual"` - exactly the columns the roll-up sums. -/
def foundActualCols (clin : Sheet) (labels : List String) (year : Nat) : List Nat :=
  labels.filterMap fun lbl =>
    match find_week_column clin lbl year with
    | none => none
    | some col => if clin.val 2 col = .vStr "Actual" then some col else none

/-- `EMPLOYEE_RATES` of wsr_updater.py. -/
def EMPLOYEE_RATES : List (String × ℚ) :=
  [("David Thompson", 211.15), ("Nathan Ruf", 187.41), ("Philip Yang", 211.15)]

/-- `EMPLOYEE_RATES.get(emp_name, 0)` with the dictionary key being the
column-B cell value (a non-string key finds nothing). -/
def ratesGet : CellValue → ℚ
  | .vStr s => (dictGet? EMPLOYEE_RATES s).getD 0
  | _ => 0

/-- `rate = emp_data['rate'] or EMPLOYEE_RATES.get(emp_name, 0)`, followed by
`hrs * rate`: a falsy rate cell (`None`, `0`, `''`) falls back to the default
table; a truthy non-numeric rate would make the multiplication raise. -/
def resolveRate (d : EmpData) (nm : CellValue) : Option ℚ :=
  if truthy d.rate then
    match d.rate with
    | .vNum q => some q
    | _ => none
  else some (ratesGet nm)

/-- `next_row = 2; while data_sheet.cells(next_row, 1).value: next_row += 1`:
the first row at or after 2 whose column-A cell is falsy.  The Python loop is
unbounded; `searchBound` bounds the scan (cells beyond the sheet's content
read as `None`, so any bound past the content gives the loop's answer). -/
def findNextEmptyRow (ds : Sheet) (searchBound : Nat) : Option Nat :=
  (List.range' 2 searchBound).find? fun r => ¬ truthy (ds.val r 1)

/-- One appended row of the `Data` tab, as recorded in `rollup_data`. -/
structure RollupEntry where
  employee : CellValue
  hours : ℚ
  rate : ℚ
  cost : ℚ
  row : Nat
deriving DecidableEq

/-- One employee of the append loop: an employee with positive monthly hours
gets one row of eleven cells at `next_row` (which then advances), with
`cost = hrs * rate`; others are skipped. -/
def rollupStep (mh : List (CellValue × ℚ)) (monthStr : String)
    (st : Sheet × List RollupEntry × Nat) (p : CellValue × EmpData) :
    Option (Sheet × List RollupEntry × Nat) :=
  let hrs := (dictGet? mh p.1).getD 0
  if 0 < hrs then
    match resolveRate p.2 p.1 with
    | none => none
    | some rate =>
        let cost := hrs * rate
        let r := st.2.2
        let ds' := (((((((((((st.1.setVal r 1 (.vStr "Vertekal")).setVal r 2
          p.2.charge_no).setVal r 3 p.1).setVal r 4 p.2.clin).setVal r 5
          p.2.position).setVal r 6 (.vNum rate)).setVal r 7 p.2.wbs).setVal r 8
          p.2.detail).setVal r 9 (.vNum hrs)).setVal r 10 (.vNum cost)).setVal r 11
          (.vStr monthStr))
        some (ds', st.2.1 ++ [⟨p.1, hrs, rate, cost, r⟩], r + 1)
  else some st

/-- The append loop over `employees.items()`. -/
def appendRollup (ds : Sheet) (emps : List (CellValue × EmpData))
    (mh : List (CellValue × ℚ)) (startRow : Nat) (monthStr : String) :
    Option (Sheet × List RollupEntry × Nat) :=
  emps.foldlM (rollupStep mh monthStr) (ds, ([] : List RollupEntry), startRow)

/-- Full month names used by `strftime('%B')`. -/
def monthNameFull (m : Nat) : String :=
  (["January", "February", "March", "April", "May", "June", "July", "August",
    "September", "October", "November", "December"].getD (m - 1) "")

/-- The pure core of `rollup_monthly`: build the employee table, sum the
Actual weeks, find the first empty ledger row, and append the rows.  Returns
the updated `Data` sheet and `rollup_data`. -/
def rollup_monthly (clin ds : Sheet) (year month : Nat) (labels : List String)
    (searchBound : Nat) : Option (Sheet × List RollupEntry) :=
  let emps := buildEmployees clin
  match computeMonthlyHours clin year emps labels with
  | none => none
  | some mh =>
      match findNextEmptyRow ds searchBound with
      | none => none
      | some r0 =>
          let monthStr := monthNameFull month ++ " " ++ toString year
          match appendRollup ds emps mh r0 monthStr with
          | none => none
          | some (ds', entries, _) => some (ds', entries)

/-! ## Report configuration (config/employee_mappings.json, config/msr_settings.json)

The two JSON configuration files are data loaded at the start of every
updater; they are parameters of the embedded functions. -/

/-- One charge-code mapping of an employee: the owning report, the sheet
(used by the TO8 updater only) and the target row. -/
structure ChargeMapping where
  msr : String
  sheet : String
  row : Nat
deriving DecidableEq

/-- One employee record of `employee_mappings.json`. -/
structure EmployeeInfo where
  msrs : List String
  charge_codes : List (String × ChargeMapping)
deriving DecidableEq

/-- The `employee_mappings.json` file: `mappings['employees'].items()`. -/
structure Mappings where
  employees : List (String × EmployeeInfo)
deriving DecidableEq

/-- `msr_settings.json` entry for TO1 (and, sans total row, TO6). -/
structure TO1Settings where
  sheet_name : String
  date_header_row : Nat
  status_row : Nat
  total_row : Nat
deriving DecidableEq

/-- Per-sheet `msr_settings.json` entry for TO8. -/
structure TO8SheetSettings where
  date_header_row : Nat
  status_row : Nat
  fillStart : Nat
  fillStop : Nat
deriving DecidableEq

/-- TO6 settings: sheet name, date header row and status row (no total row). -/
structure TO6Settings where
  sheet_name : String
  date_header_row : Nat
  status_row : Nat
deriving DecidableEq

/-- The `msr_settings.json` file. -/
structure Settings where
  to1 : TO1Settings
  to8_sheets : List (String × TO8SheetSettings)
  to6 : TO6Settings
deriving DecidableEq

/-- One entry of an updater's `updates` list. -/
structure UpdateRec where
  employee : String
  charge_code : String
  row : Nat
  hours : ℚ
deriving DecidableEq

/-- The dictionary returned by `update_to1_msr` / `update_to6_msr`. -/
structure MsrResult where
  msr : String
  total_hours : ℚ
  updates : List UpdateRec
  output_path : String
deriving DecidableEq

/-! ## TO1 updater (`update_to1_msr`, to1_updater.py lines 19-108) -/

/-- The configured (employee, charge code, row) triples of one report: the
employees listing the report in `msrs`, each with the charge codes mapped to
that report, in iteration order. -/
def reportPairs (mp : Mappings) (rep : String) : List (String × String × Nat) :=
  mp.employees.flatMap fun pe =>
    if rep ∈ pe.2.msrs then
      pe.2.charge_codes.filterMap fun pc =>
        if pc.2.msr = rep then some (pe.1, pc.1, pc.2.row) else none
    else []

/-- The inner charge-code loop of `update_to1_msr` (and `update_to6_msr`):
for each code mapped to the report, read the previous-column fill, write the
hours and the fill at the target column, and extend the running total and
updates list. -/
def to1CodeStep (td : AggMap) (targetCol : Nat) (empName : String)
    (st : Sheet × ℚ × List UpdateRec) (pc : String × ChargeMapping) :
    Sheet × ℚ × List UpdateRec :=
  if pc.2.msr = "TO1" then
    let (ws, tot, ups) := st
    let row := pc.2.row
    let hours := lookupHours td empName pc.1
    let rowFill := ws.fill row (targetCol - 1)
    let ws' := (ws.setVal row targetCol (.vNum hours)).setFill row targetCol rowFill
    (ws', tot + hours, ups ++ [⟨empName, pc.1, row, hours⟩])
  else st

/-- The outer employee loop of `update_to1_msr`. -/
def to1EmpStep (td : AggMap) (targetCol : Nat)
    (st : Sheet × ℚ × List UpdateRec) (pe : String × EmployeeInfo) :
    Sheet × ℚ × List UpdateRec :=
  if "TO1" ∈ pe.2.msrs then
    pe.2.charge_codes.foldl (to1CodeStep td targetCol pe.1) st
  else st

/-- `update_to1_msr`: mark the status row `"Actual"` with the previous
column's fill, write every configured (employee, charge code) row, then
write the accumulated total into the total row.  Workbook load/save is
modelled by passing the single sheet in and out. -/
def update_to1_msr (ws : Sheet) (td : AggMap) (targetCol : Nat) (outputPath : String)
    (mp : Mappings) (cfg : TO1Settings) : Sheet × MsrResult :=
  let prev := targetCol - 1
  let statusFill := ws.fill cfg.status_row prev
  let ws := (ws.setVal cfg.status_row targetCol (.vStr "Actual")).setFill
    cfg.status_row targetCol statusFill
  let (ws, tot, ups) := mp.employees.foldl (to1EmpStep td targetCol) (ws, 0, [])
  let totalFill := ws.fill cfg.total_row prev
  let ws := (ws.setVal cfg.total_row targetCol (.vNum tot)).setFill
    cfg.total_row targetCol totalFill
  (ws, ⟨"TO1", tot, ups, outputPath⟩)

/-! ## TO6 updater (`update_to6_msr`, to6_updater.py lines 19-100)

Identical to TO1 except that there is no total row and the report key is
`'TO6'`. -/

/-- Inner charge-code loop of `update_to6_msr`. -/
def to6CodeStep (td : AggMap) (targetCol : Nat) (empName : String)
    (st : Sheet × ℚ × List UpdateRec) (pc : String × ChargeMapping) :
    Sheet × ℚ × List UpdateRec :=
  if pc.2.msr = "TO6" then
    let (ws, tot, ups) := st
    let row := pc.2.row
    let hours := lookupHours td empName pc.1
    let rowFill := ws.fill row (targetCol - 1)
    let ws' := (ws.setVal row targetCol (.vNum hours)).setFill row targetCol rowFill
    (ws', tot + hours, ups ++ [⟨empName, pc.1, row, hours⟩])
  else st

/-- Outer employee loop of `update_to6_msr`. -/
def to6EmpStep (td : AggMap) (targetCol : Nat)
    (st : Sheet × ℚ × List UpdateRec) (pe : String × EmployeeInfo) :
    Sheet × ℚ × List UpdateRec :=
  if "TO6" ∈ pe.2.msrs then
    pe.2.charge_codes.foldl (to6CodeStep td targetCol pe.1) st
  else st

/-- `update_to6_msr`. -/
def update_to6_msr (ws : Sheet) (td : AggMap) (targetCol : Nat) (outputPath : String)
    (mp : Mappings) (cfg : TO6Settings) : Sheet × MsrResult :=
  let prev := targetCol - 1
  let statusFill := ws.fill cfg.status_row prev
  let ws := (ws.setVal cfg.status_row targetCol (.vStr "Actual")).setFill
    cfg.status_row targetCol statusFill
  let (ws, tot, ups) := mp.employees.foldl (to6EmpStep td targetCol) (ws, 0, [])
  (ws, ⟨"TO6", tot, ups, outputPath⟩)

/-! ## TO8 updater (`update_to8_msr`, to8_updater.py lines 22-120)

TO8 has two CLIN sheets; a missing sheet or an unexpected sheet name in the
settings raises a `KeyError`, modelled as `Except.error`. -/

/-- A workbook: sheets by name. -/
abbrev Workbook := List (String × Sheet)

/-- `wb[sheet_name]`, raising `KeyError` when the sheet does not exist. -/
def getSheetE (wb : Workbook) (name : String) : Except String Sheet :=
  match dictGet? wb name with
  | some ws => .ok ws
  | none => .error ("Worksheet " ++ name ++ " does not exist.")

/-- `ACTUAL_FILL`, the light-blue fallback of to8_updater.py. -/
def ACTUAL_FILL : FillVal := .solid "B4C6E7"

/-- The dictionary returned by `update_to8_msr`. -/
structure TO8Result where
  msr : String
  total_hours : ℚ
  clin_0001aa_hours : ℚ
  clin_0002aa_hours : ℚ
  updates : List (String × List UpdateRec)
  output_path : String
deriving DecidableEq

/-- The per-sheet body of the TO8 loop: status cell, fill range, and the
value writes of every (employee, charge code) mapped to this sheet, with the
update records appended to `all_updates[sheet_name]` (a `KeyError` when the
settings name a sheet outside the two initialised keys). -/
def to8SheetUpdate (td : AggMap) (targetCol : Nat) (mp : Mappings)
    (st : Workbook × List (String × List UpdateRec))
    (ps : String × TO8SheetSettings) : Except String (Workbook × List (String × List UpdateRec)) := do
  let (wb, allUps) := st
  let sheetName := ps.1
  let cfg := ps.2
  let ws ← getSheetE wb sheetName
  let prev := targetCol - 1
  let prevFill := ws.fill cfg.status_row prev
  let statusFill := if fillUsable prevFill then prevFill else ACTUAL_FILL
  let ws := ws.setVal cfg.status_row targetCol (.vStr "Actual")
  let ws := (List.range' cfg.fillStart (cfg.fillStop + 1 - cfg.fillStart)).foldl
    (fun w row => w.setFill row targetCol statusFill) ws
  let step := fun (acc : Sheet × List (String × List UpdateRec))
      (pe : String × EmployeeInfo) =>
    if "TO8" ∈ pe.2.msrs then
      pe.2.charge_codes.foldlM
        (fun (acc : Sheet × List (String × List UpdateRec)) pc => do
          if pc.2.msr = "TO8" ∧ pc.2.sheet = sheetName then
            let row := pc.2.row
            let hours := lookupHours td pe.1 pc.1
            let w := acc.1.setVal row targetCol (.vNum hours)
            match dictGet? acc.2 sheetName with
            | none => Except.error ("KeyError: " ++ sheetName)
            | some ups =>
                pure (w, dictSet acc.2 sheetName (ups ++ [⟨pe.1, pc.1, row, hours⟩]))
          else pure acc)
        acc
    else pure acc
  let (ws, allUps) ← mp.employees.foldlM step (ws, allUps)
  pure (dictSet wb sheetName ws, allUps)

/-- `update_to8_msr`: iterate the settings' sheets, then total the two CLIN
update lists. -/
def update_to8_msr (wb : Workbook) (td : AggMap) (targetCol : Nat) (outputPath : String)
    (mp : Mappings) (sheets : List (String × TO8SheetSettings)) :
    Except String (Workbook × TO8Result) := do
  let init : List (String × List UpdateRec) := [("CLIN 0001AA", []), ("CLIN 0002AA", [])]
  let (wb, allUps) ← sheets.foldlM (to8SheetUpdate td targetCol mp) (wb, init)
  let tot1 := (((dictGet? allUps "CLIN 0001AA").getD []).map (·.hours)).sum
  let tot2 := (((dictGet? allUps "CLIN 0002AA").getD []).map (·.hours)).sum
  pure (wb, ⟨"TO8", tot1 + tot2, tot1, tot2, allUps, outputPath⟩)

/-! ## Orchestrator (`update_all_msrs`, update_msrs.py lines 135-280)

Each of the three reports is attempted inside its own `try`/`except`: the
orchestrator loads the workbook (`data_only=True`) to locate the target
column with `find_month_column`, then calls the report's updater, which
reloads the workbook from the same path.  A missing column produces the
`{'error': 'Column not found'}` entry; any exception produces
`{'error': str(e)}`.  Workbook loading is modelled per report as an
`Except String Workbook` input (the `IOError` of a failing open). -/

/-- Capitalised abbreviated month names, `strftime('%b')`. -/
def monthNameAbbrev (m : Nat) : String :=
  (["Jan", "Feb", "Mar", "Apr", "May", "Jun", "Jul", "Aug", "Sep", "Oct",
    "Nov", "Dec"].getD (m - 1) "")

/-- Zero-padded two-digit rendering, `f"{month:02d}"`. -/
def pad2 (n : Nat) : String :=
  if n < 10 then "0" ++ toString n else toString n

/-- `get_msr_output_filename` of update_msrs.py. -/
def get_msr_output_filename (msrType : String) (year month : Nat) : String :=
  if msrType = "TO1" then
    "Athena TO1 Vertekal MSR " ++ monthNameAbbrev month ++ " " ++ toString year ++ ".xlsx"
  else if msrType = "TO8" then
    "Athena TO8-Vertekal MSR_" ++ toString year ++ "." ++ pad2 month ++ ".xlsx"
  else if msrType = "TO6" then
    "Athena TO6 Vertekal MSR Opt3 " ++ monthNameFull month ++ " " ++ toString year ++ ".xlsx"
  else
    msrType ++ "_MSR_" ++ toString year ++ "-" ++ pad2 month ++ ".xlsx"

/-- The value stored in the orchestrator's `results` dictionary for one
report: the updater's summary dictionary, or an `{'error': ...}` entry. -/
inductive ReportOutcome : Type
  | okMsr : MsrResult → ReportOutcome
  | okTO8 : TO8Result → ReportOutcome
  | err : String → ReportOutcome
deriving DecidableEq

/-- Is the outcome a success (`'error' not in r`)? -/
def ReportOutcome.isOk : ReportOutcome → Bool
  | .err _ => false
  | _ => true

/-- The TO1 block of `update_all_msrs`: everything inside its `try`. -/
def tryTO1 (td : AggMap) (inp : Except String Workbook) (ty tm : Nat)
    (mp : Mappings) (st : Settings) (outputDir : String) : ReportOutcome :=
  let attempt : Except String ReportOutcome := do
    let wb ← inp
    let ws ← getSheetE wb st.to1.sheet_name
    match find_month_column ws st.to1.date_header_row ty tm with
    | none => pure (.err "Column not found")
    | some col => do
        let outPath := outputDir ++ "/" ++ get_msr_output_filename "TO1" ty tm
        let wb2 ← inp
        let ws2 ← getSheetE wb2 "Extension Period MSR"
        let (_, res) := update_to1_msr ws2 td col outPath mp st.to1
        pure (.okMsr res)
  match attempt with
  | .ok r => r
  | .error e => .err e

/-- The TO8 block of `update_all_msrs`. -/
def tryTO8 (td : AggMap) (inp : Except String Workbook) (ty tm : Nat)
    (mp : Mappings) (st : Settings) (outputDir : String) : ReportOutcome :=
  let attempt : Except String ReportOutcome := do
    let wb ← inp
    let ws ← getSheetE wb "CLIN 0001AA"
    let shSettings ← match dictGet? st.to8_sheets "CLIN 0001AA" with
      | some s => Except.ok s
      | none => Except.error "KeyError: CLIN 0001AA"
    match find_month_column ws shSettings.date_header_row ty tm with
    | none => pure (.err "Column not found")
    | some col => do
        let outPath := outputDir ++ "/" ++ get_msr_output_filename "TO8" ty tm
        let wb2 ← inp
        let (_, res) ← update_to8_msr wb2 td col outPath mp st.to8_sheets
        pure (.okTO8 res)
  match attempt with
  | .ok r => r
  | .error e => .err e

/-- The TO6 block of `update_all_msrs`. -/
def tryTO6 (td : AggMap) (inp : Except String Workbook) (ty tm : Nat)
    (mp : Mappings) (st : Settings) (outputDir : String) : ReportOutcome :=
  let attempt : Except String ReportOutcome := do
    let wb ← inp
    let ws ← getSheetE wb st.to6.sheet_name
    match find_month_column ws st.to6.date_header_row ty tm with
    | none => pure (.err "Column not found")
    | some col => do
        let outPath := outputDir ++ "/" ++ get_msr_output_filename "TO6" ty tm
        let wb2 ← inp
        let ws2 ← getSheetE wb2 "Option 4 MSR"
        let (_, res) := update_to6_msr ws2 td col outPath mp st.to6
        pure (.okMsr res)
  match attempt with
  | .ok r => r
  | .error e => .err e

/-- `update_all_msrs`: parse the month (`None` on a `ValueError`), then run
the three independent report blocks in order, collecting one entry each. -/
def update_all_msrs (td : AggMap) (to1In to8In to6In : Except String Workbook)
    (monthStr : String) (mp : Mappings) (st : Settings) (outputDir : String) :
    Option (List (String × ReportOutcome)) :=
  match parse_month_input monthStr with
  | none => none
  | some (ty, tm) =>
      some [("TO1", tryTO1 td to1In ty tm mp st outputDir),
            ("TO8", tryTO8 td to8In ty tm mp st outputDir),
            ("TO6", tryTO6 td to6In ty tm mp st outputDir)]

/-- The summary line `successful = sum(1 for r in results.values() if 'error' not in r)`. -/
def successCount (results : List (String × ReportOutcome)) : Nat :=
  (results.filter fun p => p.2.isOk).length

/-! ## Aggregation properties -/

theorem any_congr_of_perm {α : Type} {l l' : List α} (h : l.Perm l') (p : α → Bool) :
    l.any p = l'.any p := by
  apply Bool.eq_iff_iff.mpr
  simp only [List.any_eq_true]
  constructor
  · rintro ⟨x, hx, hp⟩; exact ⟨x, h.mem_iff.mp hx, hp⟩
  · rintro ⟨x, hx, hp⟩; exact ⟨x, h.mem_iff.mpr hx, hp⟩

theorem agg_perm_congr {α : Type} (f : α → Option (String × String × ℚ))
    {l l' : List α} (h : l.Perm l') :
    (∀ n c, lookup2 (l.foldl (pstep f) []) n c = lookup2 (l'.foldl (pstep f) []) n c) ∧
    (∀ n, (lookupEmp (l.foldl (pstep f) []) n).isSome =
      (lookupEmp (l'.foldl (pstep f) []) n).isSome) := by
  constructor
  · intro n c
    rw [lookup2_agg, lookup2_agg, any_congr_of_perm h, (h.map (contrib f n c)).sum_eq]
  · intro n
    rw [lookupEmp_agg, lookupEmp_agg, any_congr_of_perm h]

theorem agg_skip_of_extract_none {α : Type} (f : α → Option (String × String × ℚ))
    (l1 l2 : List α) (e : α) (hfe : f e = none) :
    (∀ n c, lookup2 ((l1 ++ e :: l2).foldl (pstep f) []) n c =
      lookup2 ((l1 ++ l2).foldl (pstep f) []) n c) ∧
    (∀ n, (lookupEmp ((l1 ++ e :: l2).foldl (pstep f) []) n).isSome =
      (lookupEmp ((l1 ++ l2).foldl (pstep f) []) n).isSome) := by
  constructor
  · intro n c
    rw [lookup2_agg, lookup2_agg]
    have hhit : hits f n c e = false := by simp [hits, hfe]
    have hcontrib : contrib f n c e = 0 := by simp [contrib, hfe]
    simp [List.any_append, hhit, hcontrib]
  · intro n
    rw [lookupEmp_agg, lookupEmp_agg]
    have hhit : hitsEmp f n e = false := by simp [hitsEmp, hfe]
    simp [List.any_append, hhit]

/-- Aggregation-map well-formedness: no empty inner map, all hours positive. -/
def aggWF (m : AggMap) : Prop := ∀ p ∈ m, p.2 ≠ [] ∧ ∀ q ∈ p.2, 0 < q.2

theorem updateCode_ne_nil (cm : CodeMap) (c : String) (h : ℚ) : updateCode cm c h ≠ [] := by
  cases cm with
  | nil => simp [updateCode]
  | cons p rest =>
      obtain ⟨c₀, v₀⟩ := p
      by_cases hc : c₀ = c <;> simp [updateCode, hc]

theorem updateCode_pos (cm : CodeMap) (c : String) (h : ℚ)
    (hcm : ∀ q ∈ cm, 0 < q.2) (hh : 0 < h) : ∀ q ∈ updateCode cm c h, 0 < q.2 := by
  induction cm with
  | nil =>
      intro q hq
      simp [updateCode] at hq
      simp [hq, hh]
  | cons p rest ih =>
      obtain ⟨c₀, v₀⟩ := p
      intro q hq
      by_cases hc : c₀ = c
      · subst hc
        simp [updateCode] at hq
        rcases hq with hq | hq
        · have hv : 0 < v₀ := hcm (c₀, v₀) (by simp)
          simp [hq]
          positivity
        · exact hcm q (by simp [hq])
      · simp [updateCode, hc] at hq
        rcases hq with hq | hq
        · exact hcm q (by simp [hq])
        · exact ih (fun q hq => hcm q (by simp [hq])) q hq

theorem aggWF_addHours (m : AggMap) (hm : aggWF m) (n c : String) (h : ℚ) (hh : 0 < h) :
    aggWF (addHours m n c h) := by
  induction m with
  | nil =>
      intro p hp
      simp [addHours] at hp
      subst hp
      refine ⟨by simp, ?_⟩
      intro q hq
      simp at hq
      simp [hq, hh]
  | cons p₀ rest ih =>
      obtain ⟨n₀, cm₀⟩ := p₀
      intro p hp
      by_cases hn : n₀ = n
      · subst hn
        simp [addHours] at hp
        rcases hp with hp | hp
        · subst hp
          have h₀ := hm (n₀, cm₀) (by simp)
          exact ⟨updateCode_ne_nil _ _ _, updateCode_pos _ _ _ h₀.2 hh⟩
        · exact hm p (by simp [hp])
      · simp [addHours, hn] at hp
        rcases hp with hp | hp
        · subst hp
          exact hm (n₀, cm₀) (by simp)
        · exact ih (fun p hp => hm p (by simp [hp])) p hp

theorem aggWF_foldl {α : Type} (f : α → Option (String × String × ℚ))
    (hf : ∀ r n c h, f r = some (n, c, h) → 0 < h) (rows : List α) :
    ∀ acc, aggWF acc → aggWF (rows.foldl (pstep f) acc) := by
  induction rows with
  | nil => intro acc hacc; simpa using hacc
  | cons r rest ih =>
      intro acc hacc
      simp only [List.foldl_cons]
      apply ih
      cases hfr : f r with
      | none => simpa [pstep, hfr] using hacc
      | some t =>
          obtain ⟨n, c, h⟩ := t
          simp only [pstep, hfr]
          exact aggWF_addHours acc hacc n c h (hf r n c h hfr)

theorem lookupEmp_mem (m : AggMap) (n : String) (cm : CodeMap)
    (h : lookupEmp m n = some cm) : (n, cm) ∈ m := by
  induction m with
  | nil => simp [lookupEmp] at h
  | cons p rest ih =>
      obtain ⟨n₀, cm₀⟩ := p
      by_cases hn : n₀ = n
      · subst hn
        simp [lookupEmp] at h
        simp [h]
      · simp [lookupEmp, hn] at h
        simp [ih h]

theorem csvExtract_pos (r : CsvRow) (n c : String) (h : ℚ)
    (hf : csvExtract r = some (n, c, h)) : 0 < h := by
  by_cases h1 : pyStripStr r.jobcode_1 = "PTO" ∨ pyStripStr r.jobcode_1 = "Holiday"
  · simp [csvExtract, h1] at hf
  · simp [csvExtract, h1] at hf
    obtain ⟨⟨-, hpos⟩, -, -, hh⟩ := hf
    exact hh ▸ hpos

theorem tsExtract_pos (users : List (String × String)) (jobcodes : List (Nat × String))
    (skips : List String) (r : TsEntry) (n c : String) (h : ℚ)
    (hf : tsExtract users jobcodes skips r = some (n, c, h)) : 0 < h := by
  cases hu : dictGet? users r.user_id with
  | none => simp [tsExtract, hu] at hf
  | some emp =>
      by_cases hskip : ((dictGet? jobcodes r.jobcode_id).getD "") ∈ skips
      · simp [tsExtract, hu, hskip] at hf
      · simp [tsExtract, hu, hskip] at hf
        obtain ⟨⟨-, hdur⟩, -, -, hh⟩ := hf
        have hq : (0 : ℚ) < (r.duration : ℚ) := by exact_mod_cast hdur
        have : (0 : ℚ) < (r.duration : ℚ) / 3600 := by positivity
        exact hh ▸ this

/-! ## Claim C2 -/

/-- The worksheet of the spec's month-locator test case: header row 3 holds
`[None, date(2025,12,1), date(2026,1,1), date(2026,2,1)]` at columns 1-4. -/
def c2Sheet : Sheet :=
  { maxColumn := 4
    val := fun r c =>
      if r = 3 then
        if c = 2 then .vDate 2025 12 1
        else if c = 3 then .vDate 2026 1 1
        else if c = 4 then .vDate 2026 2 1
        else .vNone
      else .vNone
    fill := fun _ _ => .emptyFill }

/-- C2: with header cells `[None, date(2025,12,1), date(2026,1,1),
date(2026,2,1)]` in date-header row 3 at columns 1-4, the month-mode column
locator called with target year 2026 and month 1 returns column 3, the first
column (left to right) whose cell's year and month equal the target. -/
theorem claim_C2_month_locator_example :
    find_month_column c2Sheet 3 2026 1 = some 3 := by decide

/-! ## Claim C3 -/

/-- C3: aggregation is commutative - permuting the raw entries changes
neither the per-(employee, charge code) hours nor the set of employees, for
the CSV parser and for the API aggregation alike. -/
theorem claim_C3_aggregation_permutation
    (l l' : List CsvRow) (hcsv : l.Perm l')
    (users : List (String × String)) (jobcodes : List (Nat × String))
    (skips : List String) (t t' : List TsEntry) (hts : t.Perm t') :
    ((∀ n c, lookup2 (parse_timesheet_csv l) n c = lookup2 (parse_timesheet_csv l') n c) ∧
      (∀ n, (lookupEmp (parse_timesheet_csv l) n).isSome =
        (lookupEmp (parse_timesheet_csv l') n).isSome)) ∧
    ((∀ n c, lookup2 (get_tsheets_timesheets users jobcodes skips t) n c =
        lookup2 (get_tsheets_timesheets users jobcodes skips t') n c) ∧
      (∀ n, (lookupEmp (get_tsheets_timesheets users jobcodes skips t) n).isSome =
        (lookupEmp (get_tsheets_timesheets users jobcodes skips t') n).isSome)) :=
  ⟨agg_perm_congr csvExtract hcsv, agg_perm_congr (tsExtract users jobcodes skips) hts⟩

/-- Two concrete CSV rows for the C3 witness. -/
def c3RowA : CsvRow := ⟨"Jane", "Doe", 5, "A100", "R100"⟩

/-- Second concrete CSV row for the C3 witness. -/
def c3RowB : CsvRow := ⟨"Jane", "Doe", 2, "A100", "R100"⟩

/-- Witness for C3: the theorem applied to the two-row swap and one TSheets
record pair, evaluated at the concrete employee and charge code. -/
theorem claim_C3_witness :
    lookup2 (parse_timesheet_csv [c3RowA, c3RowB]) "Jane Doe" "R100" =
      lookup2 (parse_timesheet_csv [c3RowB, c3RowA]) "Jane Doe" "R100" :=
  (claim_C3_aggregation_permutation [c3RowA, c3RowB] [c3RowB, c3RowA]
    (List.Perm.swap c3RowB c3RowA []) [] [] [] [] [] (List.Perm.refl [])).1.1
    "Jane Doe" "R100"

/-! ## Claim C4 -/

/-- C4: an entry whose stripped primary job code is in the exclusion set
(`PTO` or `Holiday`) contributes no hours to the CSV aggregation under any
charge code, whatever its secondary code or hours value: removing it leaves
every cell and the employee set of the result unchanged. -/
theorem claim_C4_exclusion_drops_entry (l1 l2 : List CsvRow) (e : CsvRow)
    (he : pyStripStr e.jobcode_1 = "PTO" ∨ pyStripStr e.jobcode_1 = "Holiday") :
    (∀ n c, lookup2 (parse_timesheet_csv (l1 ++ e :: l2)) n c =
      lookup2 (parse_timesheet_csv (l1 ++ l2)) n c) ∧
    (∀ n, (lookupEmp (parse_timesheet_csv (l1 ++ e :: l2)) n).isSome =
      (lookupEmp (parse_timesheet_csv (l1 ++ l2)) n).isSome) := by
  have hfe : csvExtract e = none := by
    simp only [csvExtract]
    rw [if_pos he]
  exact agg_skip_of_extract_none csvExtract l1 l2 e hfe

/-- The excluded row of the C4 witness: primary code `PTO`, secondary code
`R100`, 8 hours. -/
def c4PtoRow : CsvRow := ⟨"Jane", "Doe", 8, "PTO", "R100"⟩

/-- Witness for C4: with the `PTO` entry inserted in front of `c3RowA`, the
cell ("Jane Doe", "R100") is what `c3RowA` alone produces. -/
theorem claim_C4_witness :
    (pyStripStr c4PtoRow.jobcode_1 = "PTO" ∨ pyStripStr c4PtoRow.jobcode_1 = "Holiday") ∧
    lookup2 (parse_timesheet_csv ([] ++ c4PtoRow :: [c3RowA])) "Jane Doe" "R100" =
      lookup2 (parse_timesheet_csv ([] ++ [c3RowA])) "Jane Doe" "R100" :=
  ⟨Or.inl (by decide),
    (claim_C4_exclusion_drops_entry [] [c3RowA] c4PtoRow (Or.inl (by decide))).1
      "Jane Doe" "R100"⟩

/-! ## Claim C10 -/

/-- C10: in every aggregation result - CSV parsing or API aggregation -
every employee that is present maps to a non-empty charge-code map, and
every recorded hours value is strictly positive. -/
theorem claim_C10_aggregation_invariant (rows : List CsvRow)
    (users : List (String × String)) (jobcodes : List (Nat × String))
    (skips : List String) (tss : List TsEntry) :
    (∀ n cm, lookupEmp (parse_timesheet_csv rows) n = some cm →
      cm ≠ [] ∧ ∀ q ∈ cm, 0 < q.2) ∧
    (∀ n cm, lookupEmp (get_tsheets_timesheets users jobcodes skips tss) n = some cm →
      cm ≠ [] ∧ ∀ q ∈ cm, 0 < q.2) := by
  constructor
  · intro n cm h
    have hwf := aggWF_foldl csvExtract (fun r n c h => csvExtract_pos r n c h) rows [] (by
      intro p hp; simp at hp)
    exact hwf (n, cm) (lookupEmp_mem _ _ _ h)
  · intro n cm h
    have hwf := aggWF_foldl (tsExtract users jobcodes skips)
      (fun r n c h => tsExtract_pos users jobcodes skips r n c h) tss [] (by
      intro p hp; simp at hp)
    exact hwf (n, cm) (lookupEmp_mem _ _ _ h)

/-- Witness for C10: the one-row aggregation of `c3RowA` records Jane Doe
with the single positive entry ("R100", 5). -/
theorem claim_C10_witness :
    ([("R100", (5 : ℚ))] ≠ [] ∧ ∀ q ∈ [("R100", (5 : ℚ))], 0 < q.2) :=
  (claim_C10_aggregation_invariant [c3RowA] [] [] [] []).1 "Jane Doe"
    [("R100", (5 : ℚ))] (by decide)

/-! ## Claim C1: the TO1 updater -/

theorem Sheet.val_setVal (ws : Sheet) (r c : Nat) (v : CellValue) (r' c' : Nat) :
    (ws.setVal r c v).val r' c' = if r' = r ∧ c' = c then v else ws.val r' c' := rfl

theorem Sheet.val_setFill (ws : Sheet) (r c : Nat) (f : FillVal) :
    (ws.setFill r c f).val = ws.val := rfl

/-- The pairs a single employee contributes to the TO1 report. -/
def to1PairsOfEmp (pe : String × EmployeeInfo) : List (String × String × Nat) :=
  if "TO1" ∈ pe.2.msrs then
    pe.2.charge_codes.filterMap fun pc =>
      if pc.2.msr = "TO1" then some (pe.1, pc.1, pc.2.row) else none
  else []

theorem reportPairs_to1 (mp : Mappings) :
    reportPairs mp "TO1" = mp.employees.flatMap to1PairsOfEmp := rfl

/-- The update record written for one configured pair. -/
def mkUpdateRec (td : AggMap) (t : String × String × Nat) : UpdateRec :=
  ⟨t.1, t.2.1, t.2.2, lookupHours td t.1 t.2.1⟩

/-- The pairs of one employee's charge-code list (inner loop view). -/
def to1CodePairs (empName : String) (codes : List (String × ChargeMapping)) :
    List (String × String × Nat) :=
  codes.filterMap fun pc =>
    if pc.2.msr = "TO1" then some (empName, pc.1, pc.2.row) else none

theorem to1_inner_fold (td : AggMap) (col : Nat) (empName : String)
    (codes : List (String × ChargeMapping)) :
    ∀ ws tot ups,
      (codes.foldl (to1CodeStep td col empName) (ws, tot, ups)).2.2 =
        ups ++ (to1CodePairs empName codes).map (mkUpdateRec td) ∧
      (codes.foldl (to1CodeStep td col empName) (ws, tot, ups)).2.1 =
        tot + ((to1CodePairs empName codes).map fun t => lookupHours td t.1 t.2.1).sum ∧
      (∀ r c, c ≠ col →
        (codes.foldl (to1CodeStep td col empName) (ws, tot, ups)).1.val r c = ws.val r c) ∧
      (∀ r, r ∉ (to1CodePairs empName codes).map (fun t => t.2.2) →
        (codes.foldl (to1CodeStep td col empName) (ws, tot, ups)).1.val r col =
          ws.val r col) ∧
      (((to1CodePairs empName codes).map fun t => t.2.2).Nodup →
        ∀ t ∈ to1CodePairs empName codes,
          (codes.foldl (to1CodeStep td col empName) (ws, tot, ups)).1.val t.2.2 col =
            .vNum (lookupHours td t.1 t.2.1)) := by
  induction codes with
  | nil =>
      intro ws tot ups
      simp [to1CodePairs]
  | cons pc rest ih =>
      intro ws tot ups
      by_cases hm : pc.2.msr = "TO1"
      · have hpairs : to1CodePairs empName (pc :: rest) =
            (empName, pc.1, pc.2.row) :: to1CodePairs empName rest := by
          simp [to1CodePairs, hm]
        have hstep : to1CodeStep td col empName (ws, tot, ups) pc =
            ((ws.setVal pc.2.row col (.vNum (lookupHours td empName pc.1))).setFill
              pc.2.row col (ws.fill pc.2.row (col - 1)),
             tot + lookupHours td empName pc.1,
             ups ++ [⟨empName, pc.1, pc.2.row, lookupHours td empName pc.1⟩]) := by
          simp [to1CodeStep, hm]
        set ws₁ := (ws.setVal pc.2.row col (.vNum (lookupHours td empName pc.1))).setFill
          pc.2.row col (ws.fill pc.2.row (col - 1)) with hws₁
        obtain ⟨ih1, ih2, ih3, ih4, ih5⟩ := ih ws₁ (tot + lookupHours td empName pc.1)
          (ups ++ [⟨empName, pc.1, pc.2.row, lookupHours td empName pc.1⟩])
        refine ⟨?_, ?_, ?_, ?_, ?_⟩
        · simp only [List.foldl_cons, hstep, ih1, hpairs]
          simp [mkUpdateRec]
        · simp only [List.foldl_cons, hstep, ih2, hpairs]
          simp [add_assoc]
        · intro r c hc
          simp only [List.foldl_cons, hstep]
          rw [ih3 r c hc]
          simp [hws₁, Sheet.val_setFill, Sheet.val_setVal]
          intro h1 h2
          exact absurd h2 hc
        · intro r hr
          rw [hpairs] at hr
          simp only [List.map_cons, List.mem_cons] at hr
          push_neg at hr
          obtain ⟨hr1, hr2⟩ := hr
          simp only [List.foldl_cons, hstep]
          rw [ih4 r hr2]
          simp [hws₁, Sheet.val_setFill, Sheet.val_setVal, hr1]
        · intro hnd t ht
          rw [hpairs] at hnd ht
          simp only [List.map_cons, List.nodup_cons] at hnd
          obtain ⟨hnotin, hndrest⟩ := hnd
          simp only [List.foldl_cons, hstep]
          rcases List.mem_cons.mp ht with ht | ht
          · subst ht
            rw [ih4 _ hnotin]
            simp [hws₁, Sheet.val_setFill, Sheet.val_setVal]
          · exact ih5 hndrest t ht
      · have hpairs : to1CodePairs empName (pc :: rest) = to1CodePairs empName rest := by
          simp [to1CodePairs, hm]
        have hstep : to1CodeStep td col empName (ws, tot, ups) pc = (ws, tot, ups) := by
          simp [to1CodeStep, hm]
        obtain ⟨ih1, ih2, ih3, ih4, ih5⟩ := ih ws tot ups
        rw [hpairs]
        exact ⟨by simpa [hstep] using ih1, by simpa [hstep] using ih2,
          by simpa [hstep] using ih3, by simpa [hstep] using ih4,
          by simpa [hstep] using ih5⟩

theorem to1_outer_fold (td : AggMap) (col : Nat) (emps : List (String × EmployeeInfo)) :
    ∀ ws tot ups,
      (emps.foldl (to1EmpStep td col) (ws, tot, ups)).2.2 =
        ups ++ (emps.flatMap to1PairsOfEmp).map (mkUpdateRec td) ∧
      (emps.foldl (to1EmpStep td col) (ws, tot, ups)).2.1 =
        tot + ((emps.flatMap to1PairsOfEmp).map fun t => lookupHours td t.1 t.2.1).sum ∧
      (∀ r c, c ≠ col →
        (emps.foldl (to1EmpStep td col) (ws, tot, ups)).1.val r c = ws.val r c) ∧
      (∀ r, r ∉ (emps.flatMap to1PairsOfEmp).map (fun t => t.2.2) →
        (emps.foldl (to1EmpStep td col) (ws, tot, ups)).1.val r col = ws.val r col) ∧
      (((emps.flatMap to1PairsOfEmp).map fun t => t.2.2).Nodup →
        ∀ t ∈ emps.flatMap to1PairsOfEmp,
          (emps.foldl (to1EmpStep td col) (ws, tot, ups)).1.val t.2.2 col =
            .vNum (lookupHours td t.1 t.2.1)) := by
  induction emps with
  | nil =>
      intro ws tot ups
      simp
  | cons pe rest ih =>
      intro ws tot ups
      by_cases hm : "TO1" ∈ pe.2.msrs
      · have hemp : to1PairsOfEmp pe = to1CodePairs pe.1 pe.2.charge_codes := by
          simp [to1PairsOfEmp, to1CodePairs, hm]
        have hstep : to1EmpStep td col (ws, tot, ups) pe =
            pe.2.charge_codes.foldl (to1CodeStep td col pe.1) (ws, tot, ups) := by
          simp [to1EmpStep, hm]
        obtain ⟨in1, in2, in3, in4, in5⟩ := to1_inner_fold td col pe.1 pe.2.charge_codes ws tot ups
        set st₁ := pe.2.charge_codes.foldl (to1CodeStep td col pe.1) (ws, tot, ups) with hst₁
        have heta : List.foldl (to1EmpStep td col) st₁ rest =
            List.foldl (to1EmpStep td col) (st₁.1, st₁.2.1, st₁.2.2) rest := rfl
        obtain ⟨ih1, ih2, ih3, ih4, ih5⟩ := ih st₁.1 st₁.2.1 st₁.2.2
        have hflat : (pe :: rest).flatMap to1PairsOfEmp =
            to1CodePairs pe.1 pe.2.charge_codes ++ rest.flatMap to1PairsOfEmp := by
          simp [List.flatMap_cons, hemp]
        refine ⟨?_, ?_, ?_, ?_, ?_⟩
        · simp only [List.foldl_cons, hstep, heta, hflat]
          rw [ih1, in1]
          simp [List.map_append]
        · simp only [List.foldl_cons, hstep, heta, hflat]
          rw [ih2, in2]
          simp [List.map_append, add_assoc]
        · intro r c hc
          simp only [List.foldl_cons, hstep, heta]
          rw [ih3 r c hc, in3 r c hc]
        · intro r hr
          rw [hflat] at hr
          simp only [List.map_append, List.mem_append] at hr
          push_neg at hr
          obtain ⟨hr1, hr2⟩ := hr
          simp only [List.foldl_cons, hstep, heta]
          rw [ih4 r hr2, in4 r hr1]
        · intro hnd t ht
          rw [hflat] at hnd ht
          simp only [List.map_append] at hnd
          have hnd1 := (List.nodup_append.mp hnd).1
          have hnd2 := (List.nodup_append.mp hnd).2.1
          have hdisj := (List.nodup_append.mp hnd).2.2
          simp only [List.foldl_cons, hstep, heta]
          rcases List.mem_append.mp ht with ht | ht
          · have hrow : t.2.2 ∉ (rest.flatMap to1PairsOfEmp).map (fun t => t.2.2) := by
              intro hmem
              exact absurd hmem (by
                have := hdisj (a := t.2.2) (List.mem_map_of_mem _ ht)
                simpa using this)
            rw [ih4 _ hrow]
            exact in5 hnd1 t ht
          · exact ih5 hnd2 t ht
      · have hemp : to1PairsOfEmp pe = [] := by
          simp [to1PairsOfEmp, hm]
        have hstep : to1EmpStep td col (ws, tot, ups) pe = (ws, tot, ups) := by
          simp [to1EmpStep, hm]
        obtain ⟨ih1, ih2, ih3, ih4, ih5⟩ := ih ws tot ups
        simp only [List.foldl_cons, hstep, List.flatMap_cons, hemp, List.nil_append]
        exact ⟨ih1, ih2, ih3, ih4, ih5⟩

/-- The update records the TO1 updater produces for a configuration. -/
def to1Recs (td : AggMap) (mp : Mappings) : List UpdateRec :=
  (reportPairs mp "TO1").map (mkUpdateRec td)

/-- C1: for every configuration, aggregated mapping and target column >= 2,
`update_to1_msr` records one update per configured (employee, charge code)
pair whose hours are the aggregated value for the pair (default `0.0`); its
`total_hours` is the sum of those values; that same sum is written to the
total row at the target column; and - provided the configured rows are
pairwise distinct and distinct from the total row - every configured row
holds its pair's hours at the target column in the saved sheet. -/
theorem claim_C1_to1_update_writes_hours (ws : Sheet) (td : AggMap) (col : Nat)
    (out : String) (mp : Mappings) (cfg : TO1Settings) (ws' : Sheet) (res : MsrResult)
    (_h2 : 2 ≤ col) (hrun : update_to1_msr ws td col out mp cfg = (ws', res)) :
    res.updates = to1Recs td mp ∧
    res.total_hours = ((reportPairs mp "TO1").map fun t => lookupHours td t.1 t.2.1).sum ∧
    ws'.val cfg.total_row col = .vNum res.total_hours ∧
    ((((reportPairs mp "TO1").map fun t => t.2.2).Nodup →
      cfg.total_row ∉ (reportPairs mp "TO1").map (fun t => t.2.2) →
      ∀ u ∈ res.updates, ws'.val u.row col = .vNum u.hours)) := by
  have hout := to1_outer_fold td col mp.employees
    ((ws.setVal cfg.status_row col (.vStr "Actual")).setFill cfg.status_row col
      (ws.fill cfg.status_row (col - 1))) 0 []
  obtain ⟨o1, o2, o3, o4, o5⟩ := hout
  set ws₀ := (ws.setVal cfg.status_row col (.vStr "Actual")).setFill cfg.status_row col
    (ws.fill cfg.status_row (col - 1)) with hws₀
  set stF := mp.employees.foldl (to1EmpStep td col) (ws₀, 0, []) with hstF
  have hrun' : ((stF.1.setVal cfg.total_row col (.vNum stF.2.1)).setFill cfg.total_row col
      (stF.1.fill cfg.total_row (col - 1)), (⟨"TO1", stF.2.1, stF.2.2, out⟩ : MsrResult)) =
      (ws', res) := by
    rw [← hrun]
    rfl
  obtain ⟨hws', hres⟩ := Prod.mk.injEq .. ▸ hrun'
  have hres' : res = ⟨"TO1", stF.2.1, stF.2.2, out⟩ := hres.symm
  refine ⟨?_, ?_, ?_, ?_⟩
  · rw [hres']
    show stF.2.2 = to1Recs td mp
    rw [hstF]
    have : stF.2.2 = [] ++ (mp.employees.flatMap to1PairsOfEmp).map (mkUpdateRec td) := o1
    rw [this]
    simp [to1Recs, reportPairs_to1]
  · rw [hres']
    show stF.2.1 = ((reportPairs mp "TO1").map fun t => lookupHours td t.1 t.2.1).sum
    have : stF.2.1 = 0 + ((mp.employees.flatMap to1PairsOfEmp).map
        fun t => lookupHours td t.1 t.2.1).sum := o2
    rw [this, reportPairs_to1]
    simp
  · rw [← hws', hres']
    simp [Sheet.val_setFill, Sheet.val_setVal]
  · intro hnd hnotin u hu
    rw [hres'] at hu
    replace hu : u ∈ (mp.employees.flatMap to1PairsOfEmp).map (mkUpdateRec td) := by
      have : stF.2.2 = [] ++ (mp.employees.flatMap to1PairsOfEmp).map (mkUpdateRec td) := o1
      simpa [this] using hu
    obtain ⟨t, ht, hmk⟩ := List.mem_map.mp hu
    rw [reportPairs_to1] at hnd hnotin
    have hurow : u.row = t.2.2 := by rw [← hmk]; rfl
    have huh : u.hours = lookupHours td t.1 t.2.1 := by rw [← hmk]; rfl
    have hne : u.row ≠ cfg.total_row := by
      rw [hurow]
      intro hc
      exact hnotin (hc ▸ List.mem_map_of_mem _ ht)
    rw [← hws']
    rw [Sheet.val_setFill, Sheet.val_setVal]
    rw [if_neg (by intro hc; exact hne hc.1)]
    rw [hurow, huh]
    exact o5 hnd t ht

/-- The employee mapping of the C1 witness: Jane Doe on TO1 with charge
codes R100 (row 10) and R200 (row 11). -/
def c1Mappings : Mappings :=
  ⟨[("Jane Doe", ⟨["TO1"], [("R100", ⟨"TO1", "", 10⟩), ("R200", ⟨"TO1", "", 11⟩)]⟩)]⟩

/-- TO1 settings of the C1 witness. -/
def c1Cfg : TO1Settings := ⟨"Extension Period MSR", 3, 5, 20⟩

/-- Aggregated hours of the C1 witness. -/
def c1Td : AggMap := [("Jane Doe", [("R100", 8), ("R200", 2)])]

/-- The blank input sheet of the C1 witness. -/
def c1Ws : Sheet := ⟨10, fun _ _ => .vNone, fun _ _ => .emptyFill⟩

/-- Witness for C1: at target column 3, Jane Doe's rows receive 8.0 and 2.0
hours, the total row receives 10.0, and `total_hours` is 10.0. -/
theorem claim_C1_witness :
    2 ≤ 3 ∧
    (update_to1_msr c1Ws c1Td 3 "out.xlsx" c1Mappings c1Cfg).2.total_hours = 10 ∧
    (update_to1_msr c1Ws c1Td 3 "out.xlsx" c1Mappings c1Cfg).1.val 20 3 = .vNum 10 ∧
    (update_to1_msr c1Ws c1Td 3 "out.xlsx" c1Mappings c1Cfg).1.val 10 3 = .vNum 8 ∧
    (update_to1_msr c1Ws c1Td 3 "out.xlsx" c1Mappings c1Cfg).1.val 11 3 = .vNum 2 := by
  have h := claim_C1_to1_update_writes_hours c1Ws c1Td 3 "out.xlsx" c1Mappings c1Cfg
    (update_to1_msr c1Ws c1Td 3 "out.xlsx" c1Mappings c1Cfg).1
    (update_to1_msr c1Ws c1Td 3 "out.xlsx" c1Mappings c1Cfg).2
    (by decide) rfl
  have hlist : (reportPairs c1Mappings "TO1").map (fun t => lookupHours c1Td t.1 t.2.1)
      = [8, 2] := by decide
  have hsum : ((reportPairs c1Mappings "TO1").map fun t => lookupHours c1Td t.1 t.2.1).sum
      = 10 := by
    rw [hlist]
    norm_num
  refine ⟨by decide, ?_, ?_, ?_, ?_⟩
  · rw [h.2.1, hsum]
  · refine h.2.2.1.trans ?_
    rw [h.2.1, hsum]
  · have h10 := h.2.2.2 (by decide) (by decide) ⟨"Jane Doe", "R100", 10, 8⟩ (by
      rw [h.1]; decide)
    exact h10
  · have h11 := h.2.2.2 (by decide) (by decide) ⟨"Jane Doe", "R200", 11, 2⟩ (by
      rw [h.1]; decide)
    exact h11


/-! ## Claim C5: the monthly roll-up sums exactly the Actual weeks -/

theorem weekFold_frame (clin : Sheet) (col : Nat) (emps : List (CellValue × EmpData)) :
    ∀ (mh mh' : List (CellValue × ℚ)), emps.foldlM (weekAdd clin col) mh = some mh' →
    ∀ k, k ∉ emps.map Prod.fst → dictGet? mh' k = dictGet? mh k := by
  induction emps with
  | nil =>
      intro mh mh' h k _
      simp at h
      rw [h]
  | cons p rest ih =>
      intro mh mh' h k hk
      simp only [List.foldlM_cons] at h
      cases hq : pyFloatCell (clin.val p.2.row col) with
      | none => rw [weekAdd, hq] at h; simp at h
      | some q =>
          rw [weekAdd, hq] at h
          simp only [Option.bind_eq_bind, Option.some_bind] at h
          have hkp : k ∉ rest.map Prod.fst := by
            intro hm; exact hk (by simp [hm])
          have hkne : p.1 ≠ k := by
            intro hm; exact hk (by simp [hm])
          rw [ih _ _ h k hkp]
          exact dictGet?_dictSet_ne _ _ _ _ hkne

theorem weekFold_value (clin : Sheet) (col : Nat) (emps : List (CellValue × EmpData))
    (hnd : (emps.map Prod.fst).Nodup) :
    ∀ (mh mh' : List (CellValue × ℚ)), emps.foldlM (weekAdd clin col) mh = some mh' →
    ∀ p ∈ emps, ∀ v, dictGet? mh p.1 = some v →
      dictGet? mh' p.1 = some (v + (pyFloatCell (clin.val p.2.row col)).getD 0) := by
  induction emps with
  | nil =>
      intro mh mh' h p hp
      simp at hp
  | cons p₀ rest ih =>
      intro mh mh' h p hp v hv
      simp only [List.map_cons, List.nodup_cons] at hnd
      obtain ⟨hnotin, hndrest⟩ := hnd
      simp only [List.foldlM_cons] at h
      cases hq : pyFloatCell (clin.val p₀.2.row col) with
      | none => rw [weekAdd, hq] at h; simp at h
      | some q =>
          rw [weekAdd, hq] at h
          simp only [Option.bind_eq_bind, Option.some_bind] at h
          rcases List.mem_cons.mp hp with hp | hp
          · subst hp
            have hset : dictGet? (dictSet mh p.1 ((dictGet? mh p.1).getD 0 + q)) p.1 =
                some (v + q) := by
              rw [dictGet?_dictSet_self, hv]
              rfl
            have hfr := weekFold_frame clin col rest _ _ h p.1 hnotin
            rw [hfr, hset, hq]
            rfl
          · have hkne : p₀.1 ≠ p.1 := by
              intro hc
              exact hnotin (hc ▸ List.mem_map_of_mem Prod.fst hp)
            have hv' : dictGet? (dictSet mh p₀.1 ((dictGet? mh p₀.1).getD 0 + q)) p.1 =
                some v := by
              rw [dictGet?_dictSet_ne _ _ _ _ hkne, hv]
            exact ih hndrest _ _ h p hp v hv'

/-- What one week label adds to one employee's monthly total: the cell at
the found column when the week is found and flagged Actual, else 0. -/
def weekContrib (clin : Sheet) (year : Nat) (p : CellValue × EmpData) (lbl : String) : ℚ :=
  match find_week_column clin lbl year with
  | none => 0
  | some col =>
      if clin.val 2 col = .vStr "Actual" then (pyFloatCell (clin.val p.2.row col)).getD 0
      else 0

theorem processWeek_value (clin : Sheet) (year : Nat) (emps : List (CellValue × EmpData))
    (hnd : (emps.map Prod.fst).Nodup) (lbl : String)
    (mh mh' : List (CellValue × ℚ)) (h : processWeek clin year emps mh lbl = some mh') :
    ∀ p ∈ emps, ∀ v, dictGet? mh p.1 = some v →
      dictGet? mh' p.1 = some (v + weekContrib clin year p lbl) := by
  intro p hp v hv
  unfold processWeek at h
  unfold weekContrib
  cases hit : find_week_column clin lbl year with
  | none =>
      simp only [hit] at h ⊢
      simp at h
      subst h
      simpa using hv
  | some col =>
      simp only [hit] at h ⊢
      by_cases hst : clin.val 2 col = .vStr "Actual"
      · rw [if_pos hst] at h
        rw [if_pos hst]
        exact weekFold_value clin col emps hnd _ _ h p hp v hv
      · rw [if_neg hst] at h
        rw [if_neg hst]
        simp at h
        subst h
        simpa using hv

theorem monthlyFold_value (clin : Sheet) (year : Nat) (emps : List (CellValue × EmpData))
    (hnd : (emps.map Prod.fst).Nodup) (labels : List String) :
    ∀ (mh mh' : List (CellValue × ℚ)),
      labels.foldlM (processWeek clin year emps) mh = some mh' →
      ∀ p ∈ emps, ∀ v, dictGet? mh p.1 = some v →
        dictGet? mh' p.1 = some (v + (labels.map (weekContrib clin year p)).sum) := by
  induction labels with
  | nil =>
      intro mh mh' h p hp v hv
      simp at h
      subst h
      simpa using hv
  | cons lbl rest ih =>
      intro mh mh' h p hp v hv
      simp only [List.foldlM_cons] at h
      cases h1 : processWeek clin year emps mh lbl with
      | none => rw [h1] at h; simp at h
      | some mh₁ =>
          rw [h1] at h
          simp only [Option.bind_eq_bind, Option.some_bind] at h
          have hv₁ := processWeek_value clin year emps hnd lbl mh mh₁ h1 p hp v hv
          have := ih _ _ h p hp _ hv₁
          rw [this]
          simp [add_assoc]

theorem dictGet?_zero_init (emps : List (CellValue × EmpData)) :
    ∀ p ∈ emps, dictGet? (emps.map fun p => (p.1, (0 : ℚ))) p.1 = some 0 := by
  induction emps with
  | nil => intro p hp; simp at hp
  | cons p₀ rest ih =>
      intro p hp
      by_cases hk : p₀.1 = p.1
      · simp [dictGet?, hk]
      · rcases List.mem_cons.mp hp with hp | hp
        · exact absurd (congrArg Prod.fst hp).symm hk
        · simp only [List.map_cons, dictGet?, hk, if_false]
          exact ih p hp

theorem sum_weekContrib_eq_foundActual (clin : Sheet) (year : Nat)
    (p : CellValue × EmpData) (labels : List String) :
    (labels.map (weekContrib clin year p)).sum =
      ((foundActualCols clin labels year).map
        fun c => (pyFloatCell (clin.val p.2.row c)).getD 0).sum := by
  induction labels with
  | nil => simp [foundActualCols]
  | cons lbl rest ih =>
      cases hit : find_week_column clin lbl year with
      | none =>
          have hw : weekContrib clin year p lbl = 0 := by simp [weekContrib, hit]
          have hf : foundActualCols clin (lbl :: rest) year = foundActualCols clin rest year := by
            simp [foundActualCols, List.filterMap_cons, hit]
          rw [List.map_cons, List.sum_cons, hw, hf, ih]
          simp
      | some col =>
          by_cases hst : clin.val 2 col = .vStr "Actual"
          · have hw : weekContrib clin year p lbl =
                (pyFloatCell (clin.val p.2.row col)).getD 0 := by
              simp [weekContrib, hit, hst]
            have hf : foundActualCols clin (lbl :: rest) year =
                col :: foundActualCols clin rest year := by
              simp [foundActualCols, List.filterMap_cons, hit, hst]
            rw [List.map_cons, List.sum_cons, hw, hf, List.map_cons, List.sum_cons, ih]
          · have hw : weekContrib clin year p lbl = 0 := by simp [weekContrib, hit, hst]
            have hf : foundActualCols clin (lbl :: rest) year =
                foundActualCols clin rest year := by
              simp [foundActualCols, List.filterMap_cons, hit, hst]
            rw [List.map_cons, List.sum_cons, hw, hf, ih]
            simp

/-- C5: whenever the roll-up's summation loop completes, each tracked
employee's monthly total is exactly the sum of that employee's cells over
the found week columns whose status cell is `"Actual"`; a found week flagged
otherwise (e.g. `"Estimate"`) contributes nothing. -/
theorem claim_C5_rollup_sums_actual_weeks (clin : Sheet) (year : Nat)
    (emps : List (CellValue × EmpData)) (labels : List String)
    (mh : List (CellValue × ℚ)) (hnd : (emps.map Prod.fst).Nodup)
    (h : computeMonthlyHours clin year emps labels = some mh) :
    ∀ p ∈ emps, dictGet? mh p.1 =
      some (((foundActualCols clin labels year).map
        fun c => (pyFloatCell (clin.val p.2.row c)).getD 0).sum) := by
  intro p hp
  have h0 := dictGet?_zero_init emps p hp
  have := monthlyFold_value clin year emps hnd labels _ _ h p hp 0 h0
  rw [this, sum_weekContrib_eq_foundActual]
  simp

/-- The CLIN Level Detail sheet of the C5 witness: week `Jan 5-9` at column
100 flagged Actual with 40 hours, week `Jan 12-16` at column 101 flagged
Estimate with 35 hours, employee row 4. -/
def c5Clin : Sheet :=
  { maxColumn := 0
    val := fun r c =>
      if r = 3 ∧ c = 100 then .vStr "Jan 5-9"
      else if r = 3 ∧ c = 101 then .vStr "Jan 12-16"
      else if r = 2 ∧ c = 100 then .vStr "Actual"
      else if r = 2 ∧ c = 101 then .vStr "Estimate"
      else if r = 4 ∧ c = 100 then .vNum 40
      else if r = 4 ∧ c = 101 then .vNum 35
      else .vNone
    fill := fun _ _ => .emptyFill }

/-- The employee table of the C5 witness. -/
def c5Emps : List (CellValue × EmpData) :=
  [(.vStr "David Thompson", ⟨4, .vNone, .vNone, .vNone, .vNum 100, .vNone, .vNone⟩)]

/-- The week labels of the C5 witness month. -/
def c5Labels : List String := ["Jan 5-9", "Jan 12-16"]

/-- Witness for C5: the Estimate week contributes nothing - the monthly
total is the 40 hours of the single Actual week, matching the sum over the
found Actual columns. -/
theorem claim_C5_witness :
    (c5Emps.map Prod.fst).Nodup ∧
    computeMonthlyHours c5Clin 2026 c5Emps c5Labels =
      some [(.vStr "David Thompson", 40)] ∧
    dictGet? [(CellValue.vStr "David Thompson", (40 : ℚ))] (.vStr "David Thompson") =
      some (((foundActualCols c5Clin c5Labels 2026).map
        fun c => (pyFloatCell (c5Clin.val 4 c)).getD 0).sum) := by
  have hmh0 : computeMonthlyHours c5Clin 2026 c5Emps c5Labels =
      some [(.vStr "David Thompson", 0 + 40)] := rfl
  have hmh : computeMonthlyHours c5Clin 2026 c5Emps c5Labels =
      some [(.vStr "David Thompson", 40)] := by
    rw [hmh0]
    norm_num
  refine ⟨by decide, hmh, ?_⟩
  exact claim_C5_rollup_sums_actual_weeks c5Clin 2026 c5Emps c5Labels _ (by decide) hmh
    (.vStr "David Thompson", ⟨4, .vNone, .vNone, .vNone, .vNum 100, .vNone, .vNone⟩)
    (by decide)

/-! ## Claim C6: the monthly roll-up's ledger append -/

theorem find?_range'_spec (p : Nat → Bool) :
    ∀ (n s r0 : Nat), (List.range' s n).find? p = some r0 →
      p r0 = true ∧ s ≤ r0 ∧ ∀ r, s ≤ r → r < r0 → p r = false := by
  intro n
  induction n with
  | zero => intro s r0 h; simp [List.range'] at h
  | succ m ih =>
      intro s r0 h
      rw [show List.range' s (m + 1) = s :: List.range' (s + 1) m from rfl] at h
      by_cases hs : p s
      · rw [List.find?_cons_of_pos _ hs] at h
        obtain rfl : s = r0 := Option.some.inj h
        exact ⟨hs, le_refl s, fun r h1 h2 => absurd (lt_of_le_of_lt h1 h2) (lt_irrefl s)⟩
      · rw [List.find?_cons_of_neg _ hs] at h
        obtain ⟨h1, h2, h3⟩ := ih (s + 1) r0 h
        refine ⟨h1, le_trans (Nat.le_succ s) h2, fun r hr1 hr2 => ?_⟩
        rcases Nat.eq_or_lt_of_le hr1 with hr | hr
        · rw [← hr]; exact Bool.not_eq_true _ ▸ (by simpa using hs)
        · exact h3 r hr hr2

theorem findNextEmptyRow_spec (ds : Sheet) (bound r0 : Nat)
    (h : findNextEmptyRow ds bound = some r0) :
    ¬ truthy (ds.val r0 1) ∧ 2 ≤ r0 ∧ ∀ r, 2 ≤ r → r < r0 → truthy (ds.val r 1) := by
  obtain ⟨h1, h2, h3⟩ := find?_range'_spec _ bound 2 r0 h
  refine ⟨by simpa using h1, h2, fun r hr1 hr2 => ?_⟩
  have := h3 r hr1 hr2
  simpa using this

theorem appendRollup_fold_spec (mh : List (CellValue × ℚ)) (monthStr : String)
    (emps : List (CellValue × EmpData)) :
    ∀ (ds : Sheet) (acc : List RollupEntry) (r : Nat) (out : Sheet × List RollupEntry × Nat),
      emps.foldlM (rollupStep mh monthStr) (ds, acc, r) = some out →
      ∃ Δ, out.2.1 = acc ++ Δ ∧
        Δ.map (fun e => e.employee) =
          (emps.filter fun p => decide (0 < (dictGet? mh p.1).getD 0)).map Prod.fst ∧
        Δ.map (fun e => e.row) = List.range' r Δ.length ∧
        out.2.2 = r + Δ.length ∧
        (∀ e ∈ Δ, 0 < e.hours ∧ e.cost = e.hours * e.rate ∧
          out.1.val e.row 10 = .vNum e.cost ∧ out.1.val e.row 9 = .vNum e.hours) ∧
        (∀ p ∈ emps, 0 < (dictGet? mh p.1).getD 0 →
          ∃ e ∈ Δ, e.employee = p.1 ∧ e.hours = (dictGet? mh p.1).getD 0 ∧
            resolveRate p.2 p.1 = some e.rate) ∧
        (∀ rr c, rr < r → out.1.val rr c = ds.val rr c) := by
  induction emps with
  | nil =>
      intro ds acc r out h
      simp at h
      refine ⟨[], ?_⟩
      simp [← h]
  | cons p rest ih =>
      intro ds acc r out h
      simp only [List.foldlM_cons] at h
      by_cases hpos : 0 < (dictGet? mh p.1).getD 0
      · rw [rollupStep, if_pos hpos] at h
        cases hrate : resolveRate p.2 p.1 with
        | none => rw [hrate] at h; simp at h
        | some rate =>
            rw [hrate] at h
            simp only [Option.bind_eq_bind, Option.some_bind] at h
            set hrs := (dictGet? mh p.1).getD 0 with hhrs
            set ds₂ := (((((((((((ds.setVal r 1 (.vStr "Vertekal")).setVal r 2
              p.2.charge_no).setVal r 3 p.1).setVal r 4 p.2.clin).setVal r 5
              p.2.position).setVal r 6 (.vNum rate)).setVal r 7 p.2.wbs).setVal r 8
              p.2.detail).setVal r 9 (.vNum hrs)).setVal r 10 (.vNum (hrs * rate))).setVal
              r 11 (.vStr monthStr)) with hds₂
            obtain ⟨Δr, e1, e2, e3, e4, e5, e6, e7⟩ :=
              ih ds₂ (acc ++ [⟨p.1, hrs, rate, hrs * rate, r⟩]) (r + 1) out h
            refine ⟨⟨p.1, hrs, rate, hrs * rate, r⟩ :: Δr, ?_, ?_, ?_, ?_, ?_, ?_, ?_⟩
            · rw [e1]; simp
            · rw [List.filter_cons, if_pos (by simpa using hpos)]
              simp [e2]
            · simp only [List.map_cons, e3, List.length_cons]
              rw [List.range'_succ]
            · rw [e4, List.length_cons]; omega
            · intro e he
              rcases List.mem_cons.mp he with he | he
              · subst he
                refine ⟨hpos, rfl, ?_, ?_⟩
                · have := e7 r 10 (Nat.lt_succ_self r)
                  rw [this, hds₂]
                  simp [Sheet.val_setVal]
                · have := e7 r 9 (Nat.lt_succ_self r)
                  rw [this, hds₂]
                  simp [Sheet.val_setVal]
              · exact e5 e he
            · intro q hq hqpos
              rcases List.mem_cons.mp hq with hq | hq
              · refine ⟨⟨p.1, hrs, rate, hrs * rate, r⟩, by simp, ?_, ?_, ?_⟩
                · rw [hq]
                · rw [hq]
                · rw [hq]; exact hrate
              · obtain ⟨e, he, hee⟩ := e6 q hq hqpos
                exact ⟨e, by simp [he], hee⟩
            · intro rr c hrr
              rw [e7 rr c (by omega), hds₂]
              have hne : ¬ rr = r := by omega
              simp [Sheet.val_setVal, hne]
      · rw [rollupStep, if_neg hpos] at h
        simp only [Option.bind_eq_bind, Option.some_bind] at h
        obtain ⟨Δr, e1, e2, e3, e4, e5, e6, e7⟩ := ih ds acc r out h
        refine ⟨Δr, e1, ?_, e3, e4, e5, ?_, e7⟩
        · rw [List.filter_cons, if_neg (by simpa using hpos)]
          exact e2
        · intro q hq hqpos
          rcases List.mem_cons.mp hq with hq | hq
          · exact absurd (hq ▸ hqpos) hpos
          · exact e6 q hq hqpos

/-- C6 (amended): when the roll-up completes, it appends one ledger row per
employee WITH POSITIVE monthly hours (zero-hour employees get no row), the
rows are consecutive starting at the first empty row of the ledger sheet
(scanning column A from row 2), and each appended row's cost is the
employee's monthly hours times the rate - the sheet's rate cell when that
cell is truthy (present and non-zero), else the default rate table. -/
theorem claim_C6_rollup_appends_positive_rows (clin ds : Sheet)
    (year month searchBound : Nat) (labels : List String) (ds' : Sheet)
    (entries : List RollupEntry)
    (h : rollup_monthly clin ds year month labels searchBound = some (ds', entries)) :
    ∃ r0 mh,
      findNextEmptyRow ds searchBound = some r0 ∧
      ¬ truthy (ds.val r0 1) ∧ 2 ≤ r0 ∧
      (∀ r, 2 ≤ r → r < r0 → truthy (ds.val r 1)) ∧
      computeMonthlyHours clin year (buildEmployees clin) labels = some mh ∧
      entries.map (fun e => e.employee) =
        ((buildEmployees clin).filter
          fun p => decide (0 < (dictGet? mh p.1).getD 0)).map Prod.fst ∧
      entries.map (fun e => e.row) = List.range' r0 entries.length ∧
      (∀ e ∈ entries, 0 < e.hours ∧ e.cost = e.hours * e.rate ∧
        ds'.val e.row 10 = .vNum e.cost ∧ ds'.val e.row 9 = .vNum e.hours) ∧
      (∀ p ∈ buildEmployees clin, 0 < (dictGet? mh p.1).getD 0 →
        ∃ e ∈ entries, e.employee = p.1 ∧ e.hours = (dictGet? mh p.1).getD 0 ∧
          resolveRate p.2 p.1 = some e.rate) := by
  unfold rollup_monthly at h
  cases hmh : computeMonthlyHours clin year (buildEmployees clin) labels with
  | none =>
      simp only [hmh] at h
      exact Option.noConfusion h
  | some mh =>
      simp only [hmh] at h
      cases hfind : findNextEmptyRow ds searchBound with
      | none =>
          simp only [hfind] at h
          exact Option.noConfusion h
      | some r0 =>
          simp only [hfind] at h
          cases happ : appendRollup ds (buildEmployees clin) mh r0
              (monthNameFull month ++ " " ++ toString year) with
          | none => rw [happ] at h; simp at h
          | some out =>
              rw [happ] at h
              obtain ⟨hds', hentries⟩ : out.1 = ds' ∧ out.2.1 = entries := by
                obtain ⟨o1, o2, o3⟩ := out
                simp at h
                exact ⟨h.1, h.2⟩
              obtain ⟨hempty, h2r0, hfirst⟩ := findNextEmptyRow_spec ds searchBound r0 hfind
              obtain ⟨Δ, a1, a2, a3, a4, a5, a6, a7⟩ :=
                appendRollup_fold_spec mh (monthNameFull month ++ " " ++ toString year)
                  (buildEmployees clin) ds [] r0 out happ
              have hΔ : entries = Δ := by rw [← hentries, a1]; simp
              subst hΔ
              refine ⟨r0, mh, rfl, hempty, h2r0, hfirst, rfl, ?_, ?_, ?_, ?_⟩
              · rw [← hentries, a1]; simpa using a2
              · rw [← hentries, a1]; simpa using a3
              · intro e he
                obtain ⟨b1, b2, b3, b4⟩ := a5 e (by rw [← hentries, a1] at he; simpa using he)
                exact ⟨b1, b2, hds' ▸ b3, hds' ▸ b4⟩
              · intro p hp hppos
                obtain ⟨e, he, hee⟩ := a6 p hp hppos
                exact ⟨e, by rw [← hentries, a1]; simpa using he, hee⟩

/-- The CLIN sheet of the C6 counterexample: one employee (row 4, rate 100)
and a single week flagged Estimate. -/
def c6Clin : Sheet :=
  { maxColumn := 0
    val := fun r c =>
      if r = 4 ∧ c = 2 then .vStr "David Thompson"
      else if r = 4 ∧ c = 5 then .vNum 100
      else if r = 3 ∧ c = 100 then .vStr "W1"
      else if r = 2 ∧ c = 100 then .vStr "Estimate"
      else if r = 4 ∧ c = 100 then .vNum 40
      else .vNone
    fill := fun _ _ => .emptyFill }

/-- The (empty) Data ledger sheet of the C6 examples. -/
def c6Data : Sheet := ⟨0, fun _ _ => .vNone, fun _ _ => .emptyFill⟩

/-- Counterexample to C6 as stated: the roll-up does NOT append one row per
employee - an employee whose only week is flagged Estimate has zero monthly
hours and gets no ledger row, so the appended rows are empty although one
employee is tracked. -/
theorem claim_C6_counterexample :
    buildEmployees c6Clin ≠ [] ∧
    (rollup_monthly c6Clin c6Data 2026 1 ["W1"] 50).map (fun pr => pr.2) = some [] := by
  constructor
  · decide
  · rfl

/-- The CLIN sheet of the C6 witness: as `c6Clin` but the week is Actual. -/
def c6wClin : Sheet :=
  { maxColumn := 0
    val := fun r c =>
      if r = 4 ∧ c = 2 then .vStr "David Thompson"
      else if r = 4 ∧ c = 5 then .vNum 100
      else if r = 3 ∧ c = 100 then .vStr "W1"
      else if r = 2 ∧ c = 100 then .vStr "Actual"
      else if r = 4 ∧ c = 100 then .vNum 40
      else .vNone
    fill := fun _ _ => .emptyFill }

/-- Evaluation of the append phase for the C6 witness scenario. -/
theorem c6wAppendEval : ∃ ds2, appendRollup c6Data (buildEmployees c6wClin)
    [(.vStr "David Thompson", 40)] 2 (monthNameFull 1 ++ " " ++ toString 2026) =
    some (ds2, [⟨.vStr "David Thompson", 40, 100, 40 * 100, 2⟩], 3) := ⟨_, rfl⟩

/-- Witness for the amended C6: with 40 Actual hours and sheet rate 100, the
roll-up appends exactly one row, at the ledger's first empty row 2, whose
cost is 40 x 100 = 4000. -/
theorem claim_C6_witness :
    (rollup_monthly c6wClin c6Data 2026 1 ["W1"] 50).map (fun pr => pr.2) =
      some [⟨.vStr "David Thompson", 40, 100, 4000, 2⟩] ∧
    findNextEmptyRow c6Data 50 = some 2 ∧
    (4000 : ℚ) = 40 * 100 := by
  have hmh0 : computeMonthlyHours c6wClin 2026 (buildEmployees c6wClin) ["W1"] =
      some [(.vStr "David Thompson", 0 + 40)] := rfl
  have hmh : computeMonthlyHours c6wClin 2026 (buildEmployees c6wClin) ["W1"] =
      some [(.vStr "David Thompson", 40)] := by
    rw [hmh0]
    norm_num
  have hfind : findNextEmptyRow c6Data 50 = some 2 := by decide
  obtain ⟨ds2, happ⟩ := c6wAppendEval
  have hru : rollup_monthly c6wClin c6Data 2026 1 ["W1"] 50 =
      some (ds2, [⟨.vStr "David Thompson", 40, 100, 40 * 100, 2⟩]) := by
    unfold rollup_monthly
    simp only [hmh, hfind, happ]
  obtain ⟨r0, mhx, -, -, -, -, -, -, -, hent, -⟩ :=
    claim_C6_rollup_appends_positive_rows c6wClin c6Data 2026 1 50 ["W1"] ds2
      [⟨.vStr "David Thompson", 40, 100, 40 * 100, 2⟩] hru
  have hc := hent ⟨.vStr "David Thompson", 40, 100, 40 * 100, 2⟩ (by simp)
  refine ⟨?_, hfind, ?_⟩
  · rw [hru]
    norm_num
  · have : (40 : ℚ) * 100 = 40 * 100 := hc.2.1
    norm_num

/-! ## Claim C7: the orchestrator isolates per-report failures -/

/-- C7: when the month parses, `update_all_msrs` produces exactly one entry
per report - TO1, TO8, TO6 in order - each computed by that report's own
try-block from that report's own input; in particular the TO8 entry does not
depend on the TO1/TO6 inputs (so a failure there cannot suppress the TO8
attempt), and the summary counts exactly the reports without an error entry
out of the three. -/
theorem claim_C7_orchestrator_partial_failure
    (td : AggMap) (i1 i8 i6 : Except String Workbook) (ms : String)
    (mp : Mappings) (st : Settings) (odir : String) (ty tm : Nat)
    (hparse : parse_month_input ms = some (ty, tm)) :
    update_all_msrs td i1 i8 i6 ms mp st odir =
      some [("TO1", tryTO1 td i1 ty tm mp st odir),
            ("TO8", tryTO8 td i8 ty tm mp st odir),
            ("TO6", tryTO6 td i6 ty tm mp st odir)] ∧
    (∀ i1' i6', (update_all_msrs td i1' i8 i6' ms mp st odir).map
        (fun res => dictGet? res "TO8") =
      (update_all_msrs td i1 i8 i6 ms mp st odir).map fun res => dictGet? res "TO8") ∧
    (∀ res, update_all_msrs td i1 i8 i6 ms mp st odir = some res →
      res.map Prod.fst = ["TO1", "TO8", "TO6"] ∧
      successCount res = ((tryTO1 td i1 ty tm mp st odir).isOk.toNat +
        (tryTO8 td i8 ty tm mp st odir).isOk.toNat +
        (tryTO6 td i6 ty tm mp st odir).isOk.toNat)) := by
  have hmain : update_all_msrs td i1 i8 i6 ms mp st odir =
      some [("TO1", tryTO1 td i1 ty tm mp st odir),
            ("TO8", tryTO8 td i8 ty tm mp st odir),
            ("TO6", tryTO6 td i6 ty tm mp st odir)] := by
    unfold update_all_msrs
    rw [hparse]
  refine ⟨hmain, ?_, ?_⟩
  · intro i1' i6'
    have hmain' : update_all_msrs td i1' i8 i6' ms mp st odir =
        some [("TO1", tryTO1 td i1' ty tm mp st odir),
              ("TO8", tryTO8 td i8 ty tm mp st odir),
              ("TO6", tryTO6 td i6' ty tm mp st odir)] := by
      unfold update_all_msrs
      rw [hparse]
    rw [hmain, hmain']
    simp [dictGet?]
  · intro res hres
    rw [hmain] at hres
    obtain rfl := Option.some.inj hres
    constructor
    · rfl
    · unfold successCount
      simp only [List.filter, List.length]
      cases (tryTO1 td i1 ty tm mp st odir).isOk <;>
        cases (tryTO8 td i8 ty tm mp st odir).isOk <;>
        cases (tryTO6 td i6 ty tm mp st odir).isOk <;> rfl

/-- The one-sheet workbook page of the C7 witness: a January 2026 date
header at row 3, column 3. -/
def c7Sheet : Sheet :=
  ⟨3, fun r c => if r = 3 ∧ c = 3 then .vDate 2026 1 1 else .vNone, fun _ _ => .emptyFill⟩

/-- The TO8 workbook of the C7 witness. -/
def c7WbTO8 : Workbook := [("CLIN 0001AA", c7Sheet), ("CLIN 0002AA", c7Sheet)]

/-- The TO6 workbook of the C7 witness. -/
def c7WbTO6 : Workbook := [("TO6 Sheet", c7Sheet), ("Option 4 MSR", c7Sheet)]

/-- The settings of the C7 witness. -/
def c7Settings : Settings :=
  ⟨⟨"Extension Period MSR", 3, 2, 20⟩, [("CLIN 0001AA", ⟨3, 2, 2, 4⟩)], ⟨"TO6 Sheet", 3, 2⟩⟩

/-- Witness for C7: the TO1 workbook fails to open while TO8 and TO6
succeed; the run still produces entries for all three reports - an error
entry for TO1 only - and the summary counts 2 successes. -/
theorem claim_C7_witness :
    parse_month_input "Jan-26" = some (2026, 1) ∧
    (update_all_msrs [] (.error "open failed") (.ok c7WbTO8) (.ok c7WbTO6) "Jan-26"
        ⟨[]⟩ c7Settings "out").map (fun res => res.map fun p => (p.1, p.2.isOk)) =
      some [("TO1", false), ("TO8", true), ("TO6", true)] ∧
    (update_all_msrs [] (.error "open failed") (.ok c7WbTO8) (.ok c7WbTO6) "Jan-26"
        ⟨[]⟩ c7Settings "out").map successCount = some 2 := by
  have hp : parse_month_input "Jan-26" = some (2026, 1) := by decide
  have h := claim_C7_orchestrator_partial_failure [] (.error "open failed")
    (.ok c7WbTO8) (.ok c7WbTO6) "Jan-26" ⟨[]⟩ c7Settings "out" 2026 1 hp
  refine ⟨hp, ?_, ?_⟩
  · rw [h.1]
    rfl
  · rw [h.1]
    rfl

/-! ## Claim C9: the locators' scan ranges -/

theorem findSome?_range'_first {α : Type} (f : Nat → Option α) :
    ∀ (n s c : Nat), s ≤ c → c < s + n → f c ≠ none →
      (∀ c', s ≤ c' → c' < c → f c' = none) →
      (List.range' s n).findSome? f = f c := by
  intro n
  induction n with
  | zero => intro s c h1 h2; omega
  | succ m ih =>
      intro s c h1 h2 h3 h4
      rw [show List.range' s (m + 1) = s :: List.range' (s + 1) m from rfl]
      rcases Nat.eq_or_lt_of_le h1 with hs | hs
      · subst hs
        cases hf : f s with
        | none => exact absurd hf h3
        | some v => simp [List.findSome?, hf]
      · have hfs : f s = none := h4 s (le_refl s) hs
        rw [List.findSome?, hfs]
        exact ih (s + 1) c hs (by omega) h3 (fun c' hc1 hc2 => h4 c' (by omega) hc2)

/-- Does a header cell match the target month (month mode)? -/
def monthCellMatches (cv : CellValue) (ty tm : Nat) : Bool :=
  match cv with
  | .vDate y m _ => y = ty && m = tm
  | _ => false

/-- Does a row-3 header cell match the week label (week mode)? -/
def weekCellMatches (sheet : Sheet) (lbl : String) (c : Nat) : Bool :=
  truthy (sheet.val 3 c) && containsSub lbl.data (cellStr (sheet.val 3 c)).data

theorem weekYearConfirm_none_or_col (sheet : Sheet) (year col : Nat) :
    weekYearConfirm sheet year col = none ∨ weekYearConfirm sheet year col = some col := by
  unfold weekYearConfirm
  induction List.range' col 10 with
  | nil => simp
  | cons x rest ih =>
      rw [List.findSome?]
      by_cases hx : truthy (sheet.val 3 x) ∧
          containsSub "Total".data (cellStr (sheet.val 3 x)).data ∧
          containsSub (toString year).data (cellStr (sheet.val 3 x)).data
      · rw [if_pos hx]
        right
        rfl
      · rw [if_neg hx]
        exact ih

/-- The sheet of the C9 counterexample: the only cell containing the week
label sits at column 50, outside the hardcoded scan range 100-199. -/
def c9Sheet : Sheet :=
  ⟨0, fun r c => if r = 3 ∧ c = 50 then .vStr "Jan 5-9 2026" else .vNone,
   fun _ _ => .emptyFill⟩

/-- Counterexample to C9 as stated: the locators do not take the scanned
column range as a parameter - `find_week_column` scans the hardcoded range
100-199, so a header cell matching the week label at column 50 exists (its
cell is truthy and contains the label) yet the locator returns not-found. -/
theorem claim_C9_counterexample :
    weekCellMatches c9Sheet "Jan 5-9" 50 = true ∧
    find_week_column c9Sheet "Jan 5-9" 2026 = none := by
  constructor
  · decide
  · decide

/-- C9 (amended): neither locator takes the scan range as a caller
parameter; each finds the first matching column within its built-in range -
columns 1 to `max_column` of the sheet for the month-mode locator, the
hardcoded columns 100-199 for the week-mode locator - and a match outside
that range is not found. -/
theorem claim_C9_locators_scan_builtin_ranges :
    (∀ (ws : Sheet) (hdr ty tm c : Nat), 1 ≤ c → c ≤ ws.maxColumn →
      monthCellMatches (ws.val hdr c) ty tm = true →
      (∀ c', 1 ≤ c' → c' < c → monthCellMatches (ws.val hdr c') ty tm = false) →
      find_month_column ws hdr ty tm = some c) ∧
    (∀ (sheet : Sheet) (lbl : String) (year c : Nat), 100 ≤ c → c < 200 →
      weekCellMatches sheet lbl c = true →
      (∀ c', 100 ≤ c' → c' < c → weekCellMatches sheet lbl c' = false) →
      find_week_column sheet lbl year = some c) := by
  constructor
  · intro ws hdr ty tm c h1 h2 hm hfirst
    unfold find_month_column
    have hf : ∀ c', monthCellMatches (ws.val hdr c') ty tm = false →
        (match ws.val hdr c' with
          | .vDate y m _ => if y = ty ∧ m = tm then some c' else none
          | _ => (none : Option Nat)) = none := by
      intro c' hc'
      unfold monthCellMatches at hc'
      cases hcv : ws.val hdr c' <;> simp [hcv] at hc' ⊢
      intro hy hm'
      simp [hy, hm'] at hc'
    have hc : (match ws.val hdr c with
        | .vDate y m _ => if y = ty ∧ m = tm then some c else none
        | _ => (none : Option Nat)) = some c := by
      unfold monthCellMatches at hm
      cases hcv : ws.val hdr c <;> simp [hcv] at hm ⊢
      obtain ⟨hy, hm'⟩ := hm
      simp [hy, hm']
    rw [findSome?_range'_first _ ws.maxColumn 1 c h1 (by omega) (by rw [hc]; simp)
      (fun c' hc1 hc2 => hf c' (hfirst c' hc1 hc2))]
    exact hc
  · intro sheet lbl year c h1 h2 hm hfirst
    unfold find_week_column
    have hg : ∀ c', weekCellMatches sheet lbl c' = false →
        (if truthy (sheet.val 3 c') ∧ containsSub lbl.data (cellStr (sheet.val 3 c')).data
         then match weekYearConfirm sheet year c' with
           | some x => some x
           | none => some c'
         else none) = none := by
      intro c' hc'
      unfold weekCellMatches at hc'
      rw [if_neg]
      intro ⟨ht, hcs⟩
      simp [ht, hcs] at hc'
    have hgc : (if truthy (sheet.val 3 c) ∧ containsSub lbl.data (cellStr (sheet.val 3 c)).data
        then match weekYearConfirm sheet year c with
          | some x => some x
          | none => some c
        else none) = some c := by
      unfold weekCellMatches at hm
      simp only [Bool.and_eq_true] at hm
      rw [if_pos ⟨hm.1, hm.2⟩]
      rcases weekYearConfirm_none_or_col sheet year c with hw | hw <;> rw [hw]
    rw [findSome?_range'_first _ 100 100 c h1 (by omega) (by rw [hgc]; simp)
      (fun c' hc1 hc2 => hg c' (hfirst c' hc1 hc2))]
    exact hgc

/-- The sheet of the C9 witness: the week label at column 150, a month
header at column 3. -/
def c9wSheet : Sheet :=
  ⟨4, fun r c =>
      if r = 3 ∧ c = 150 then .vStr "Jan 5-9"
      else if r = 7 ∧ c = 3 then .vDate 2026 1 1
      else .vNone,
   fun _ _ => .emptyFill⟩

/-- Witness for the amended C9: within the built-in ranges both locators
find their matching columns. -/
theorem claim_C9_witness :
    find_month_column c9wSheet 7 2026 1 = some 3 ∧
    find_week_column c9wSheet "Jan 5-9" 2026 = some 150 := by
  constructor
  · exact claim_C9_locators_scan_builtin_ranges.1 c9wSheet 7 2026 1 3 (by decide)
      (by decide) (by decide) (by decide)
  · exact claim_C9_locators_scan_builtin_ranges.2 c9wSheet "Jan 5-9" 2026 150 (by decide)
      (by decide) (by decide) (by decide)

/-! ## Claim C8: period parsing and the three literal formats

The spec's three literal formats, written as character-list constructors:
`mkMonYY` builds "Mon-YY" (capitalised three-letter month, dash, two
digits), `mkMonthYYYY` builds "Month YYYY" (capitalised full month, one
space, four digits), `mkYYYYMM` builds "YYYY-MM" (four digits, dash,
zero-padded two-digit month).  These definitions follow the spec's words;
they are compared against the parser embedded from the source. -/

/-- The digit character for a digit value. -/
def digitCh (d : Fin 10) : Char := Char.ofNat (48 + d.val)

/-- Capitalised abbreviated month names of the "Mon-YY" format. -/
def monthAbbrevCap : List (List Char) :=
  ["Jan".data, "Feb".data, "Mar".data, "Apr".data, "May".data, "Jun".data,
   "Jul".data, "Aug".data, "Sep".data, "Oct".data, "Nov".data, "Dec".data]

/-- Capitalised full month names of the "Month YYYY" format. -/
def monthFullCap : List (List Char) :=
  ["January".data, "February".data, "March".data, "April".data, "May".data,
   "June".data, "July".data, "August".data, "September".data, "October".data,
   "November".data, "December".data]

/-- The characters of a "Mon-YY" instance. -/
def mkMonYY (i : Fin 12) (d1 d2 : Fin 10) : List Char :=
  (monthAbbrevCap.getD i.val []) ++ '-' :: [digitCh d1, digitCh d2]

/-- The characters of a "Month YYYY" instance. -/
def mkMonthYYYY (i : Fin 12) (y1 y2 y3 y4 : Fin 10) : List Char :=
  (monthFullCap.getD i.val []) ++ ' ' :: [digitCh y1, digitCh y2, digitCh y3, digitCh y4]

/-- The characters of a "YYYY-MM" instance (zero-padded month). -/
def mkYYYYMM (y1 y2 y3 y4 : Fin 10) (m : Fin 12) : List Char :=
  [digitCh y1, digitCh y2, digitCh y3, digitCh y4, '-'] ++
    (if h : m.val + 1 < 10 then ['0', digitCh ⟨m.val + 1, h⟩]
     else ['1', digitCh ⟨m.val + 1 - 10, by omega⟩])

/-- A string is in one of the spec's three literal period formats. -/
def specPeriodFormat (s : String) : Prop :=
  (∃ (i : Fin 12) (d1 d2 : Fin 10), s.data = mkMonYY i d1 d2) ∨
  (∃ (i : Fin 12) (y1 y2 y3 y4 : Fin 10), s.data = mkMonthYYYY i y1 y2 y3 y4) ∨
  (∃ (y1 y2 y3 y4 : Fin 10) (m : Fin 12), s.data = mkYYYYMM y1 y2 y3 y4 m)

theorem digitCh_isDigit (d : Fin 10) : (digitCh d).isDigit = true := by
  fin_cases d <;> decide

theorem digitCh_not_alpha (d : Fin 10) : (digitCh d).isAlpha = false := by
  fin_cases d <;> decide

theorem digitCh_not_ws (d : Fin 10) : (digitCh d).isWhitespace = false := by
  fin_cases d <;> decide

theorem digitVal_digitCh (d : Fin 10) : digitVal (digitCh d) = d.val := by
  fin_cases d <;> decide

theorem takeWhile_append_all {p : Char → Bool} :
    ∀ (xs ys : List Char), (∀ c ∈ xs, p c = true) →
      (xs ++ ys).takeWhile p = xs ++ ys.takeWhile p := by
  intro xs
  induction xs with
  | nil => intro ys _; simp
  | cons a rest ih =>
      intro ys h
      have ha : p a = true := h a (by simp)
      simp only [List.cons_append, List.takeWhile_cons, ha, if_true]
      rw [ih ys (fun c hc => h c (by simp [hc]))]

theorem dropWhile_append_all {p : Char → Bool} :
    ∀ (xs ys : List Char), (∀ c ∈ xs, p c = true) →
      (xs ++ ys).dropWhile p = ys.dropWhile p := by
  intro xs
  induction xs with
  | nil => intro ys _; simp
  | cons a rest ih =>
      intro ys h
      have ha : p a = true := h a (by simp)
      simp only [List.cons_append, List.dropWhile_cons, ha, if_true]
      exact ih ys (fun c hc => h c (by simp [hc]))

theorem pyStrip_of_ends (a z : Char) (mid : List Char)
    (ha : a.isWhitespace = false) (hz : z.isWhitespace = false) :
    pyStrip (a :: (mid ++ [z])) = a :: (mid ++ [z]) := by
  unfold pyStrip
  rw [List.dropWhile_cons, ha]
  simp only [Bool.false_eq_true, if_false]
  rw [show (a :: (mid ++ [z])).reverse = z :: (mid.reverse ++ [a]) by simp]
  rw [List.dropWhile_cons, hz]
  simp

theorem parse_monyy_format (name : List Char) (m : Nat) (d1 d2 : Fin 10)
    (hne : name ≠ []) (halpha : ∀ c ∈ name, c.isAlpha = true)
    (hnws : ∀ c ∈ name, c.isWhitespace = false)
    (habbrev : monthFromTable monthAbbrevLower name = some m) :
    parseMonthChars (name ++ '-' :: [digitCh d1, digitCh d2]) =
      some (2000 + (10 * d1.val + d2.val), m) := by
  obtain ⟨a, name', rfl⟩ := List.exists_cons_of_ne_nil hne
  have hstrip : pyStrip ((a :: name') ++ '-' :: [digitCh d1, digitCh d2]) =
      (a :: name') ++ '-' :: [digitCh d1, digitCh d2] := by
    have h2 := pyStrip_of_ends a (digitCh d2) (name' ++ ['-', digitCh d1])
      (hnws a (by simp)) (digitCh_not_ws d2)
    simpa using h2
  have hletters : ((a :: name') ++ '-' :: [digitCh d1, digitCh d2]).takeWhile Char.isAlpha =
      a :: name' := by
    rw [takeWhile_append_all _ _ halpha]
    rw [List.takeWhile_cons, show ('-').isAlpha = false from rfl]
    simp
  have hrest : ((a :: name') ++ '-' :: [digitCh d1, digitCh d2]).dropWhile Char.isAlpha =
      '-' :: [digitCh d1, digitCh d2] := by
    rw [dropWhile_append_all _ _ halpha]
    rw [List.dropWhile_cons, show ('-').isAlpha = false from rfl]
    simp
  have htry1 : tryMonYY ((a :: name') ++ '-' :: [digitCh d1, digitCh d2]) =
      some (some (2000 + (10 * d1.val + d2.val), m)) := by
    unfold tryMonYY
    simp only [hletters, hrest]
    rw [if_pos ⟨digitCh_isDigit d1, digitCh_isDigit d2⟩, habbrev]
    rw [digitVal_digitCh, digitVal_digitCh]
  unfold parseMonthChars
  simp only [hstrip, htry1]

theorem parse_monthyyyy_format (name : List Char) (m : Nat) (y1 y2 y3 y4 : Fin 10)
    (hne : name ≠ []) (halpha : ∀ c ∈ name, c.isAlpha = true)
    (hnws : ∀ c ∈ name, c.isWhitespace = false)
    (hfull : monthFromTable monthFullLower name = some m) :
    parseMonthChars (name ++ ' ' :: [digitCh y1, digitCh y2, digitCh y3, digitCh y4]) =
      some (1000 * y1.val + 100 * y2.val + 10 * y3.val + y4.val, m) := by
  obtain ⟨a, name', rfl⟩ := List.exists_cons_of_ne_nil hne
  have hstrip : pyStrip ((a :: name') ++ ' ' ::
      [digitCh y1, digitCh y2, digitCh y3, digitCh y4]) =
      (a :: name') ++ ' ' :: [digitCh y1, digitCh y2, digitCh y3, digitCh y4] := by
    have h2 := pyStrip_of_ends a (digitCh y4)
      (name' ++ [' ', digitCh y1, digitCh y2, digitCh y3])
      (hnws a (by simp)) (digitCh_not_ws y4)
    simpa using h2
  have hletters : ((a :: name') ++ ' ' ::
      [digitCh y1, digitCh y2, digitCh y3, digitCh y4]).takeWhile Char.isAlpha =
      a :: name' := by
    rw [takeWhile_append_all _ _ halpha]
    rw [List.takeWhile_cons, show (' ').isAlpha = false from rfl]
    simp
  have hrest : ((a :: name') ++ ' ' ::
      [digitCh y1, digitCh y2, digitCh y3, digitCh y4]).dropWhile Char.isAlpha =
      ' ' :: [digitCh y1, digitCh y2, digitCh y3, digitCh y4] := by
    rw [dropWhile_append_all _ _ halpha]
    rw [List.dropWhile_cons, show (' ').isAlpha = false from rfl]
    simp
  have htry1 : tryMonYY ((a :: name') ++ ' ' ::
      [digitCh y1, digitCh y2, digitCh y3, digitCh y4]) = none := by
    unfold tryMonYY
    simp only [hletters, hrest]
    rfl
  have htry2 : tryMonthYYYY ((a :: name') ++ ' ' ::
      [digitCh y1, digitCh y2, digitCh y3, digitCh y4]) =
      some (1000 * y1.val + 100 * y2.val + 10 * y3.val + y4.val, m) := by
    unfold tryMonthYYYY
    simp only [hletters, hrest, hfull]
    rw [List.takeWhile_cons, show (' ').isWhitespace = true from rfl]
    rw [List.dropWhile_cons, show (' ').isWhitespace = true from rfl]
    rw [List.takeWhile_cons, digitCh_not_ws y1]
    rw [List.dropWhile_cons, digitCh_not_ws y1]
    simp only [Bool.false_eq_true, if_false, if_true]
    rw [if_pos ⟨digitCh_isDigit y1, digitCh_isDigit y2, digitCh_isDigit y3,
      digitCh_isDigit y4⟩]
    rw [digitVal_digitCh, digitVal_digitCh, digitVal_digitCh, digitVal_digitCh]
  unfold parseMonthChars
  simp only [hstrip, htry1, htry2]

theorem parse_yyyymm_chars (y1 y2 y3 y4 : Fin 10) (u v : Char) (mv : Nat)
    (hvnws : v.isWhitespace = false)
    (hguard : (if u = '0' ∧ '1' ≤ v ∧ v ≤ '9' then some (digitVal v)
               else if u = '1' ∧ '0' ≤ v ∧ v ≤ '2' then some (10 + digitVal v)
               else none) = some mv) :
    parseMonthChars [digitCh y1, digitCh y2, digitCh y3, digitCh y4, '-', u, v] =
      some (1000 * y1.val + 100 * y2.val + 10 * y3.val + y4.val, mv) := by
  have hstrip : pyStrip [digitCh y1, digitCh y2, digitCh y3, digitCh y4, '-', u, v] =
      [digitCh y1, digitCh y2, digitCh y3, digitCh y4, '-', u, v] := by
    have h2 := pyStrip_of_ends (digitCh y1) v
      [digitCh y2, digitCh y3, digitCh y4, '-', u] (digitCh_not_ws y1) hvnws
    simpa using h2
  have hletters : ([digitCh y1, digitCh y2, digitCh y3, digitCh y4, '-', u,
      v]).takeWhile Char.isAlpha = [] := by
    rw [List.takeWhile_cons, digitCh_not_alpha y1]
    simp
  have hrest : ([digitCh y1, digitCh y2, digitCh y3, digitCh y4, '-', u,
      v]).dropWhile Char.isAlpha =
      [digitCh y1, digitCh y2, digitCh y3, digitCh y4, '-', u, v] := by
    rw [List.dropWhile_cons, digitCh_not_alpha y1]
    simp
  have htry1 : tryMonYY [digitCh y1, digitCh y2, digitCh y3, digitCh y4, '-', u, v] =
      none := by
    unfold tryMonYY
    simp only [hletters, hrest]
  have htry2 : tryMonthYYYY [digitCh y1, digitCh y2, digitCh y3, digitCh y4, '-', u, v] =
      none := by
    unfold tryMonthYYYY
    simp only [hletters, hrest]
    rfl
  have htry3 : tryYYYYMM [digitCh y1, digitCh y2, digitCh y3, digitCh y4, '-', u, v] =
      some (1000 * y1.val + 100 * y2.val + 10 * y3.val + y4.val, mv) := by
    have hred : tryYYYYMM [digitCh y1, digitCh y2, digitCh y3, digitCh y4, '-', u, v] =
        (if (digitCh y1).isDigit = true ∧ (digitCh y2).isDigit = true ∧
            (digitCh y3).isDigit = true ∧ (digitCh y4).isDigit = true then
          if u = '0' ∧ '1' ≤ v ∧ v ≤ '9' then
            some (1000 * digitVal (digitCh y1) + 100 * digitVal (digitCh y2) +
              10 * digitVal (digitCh y3) + digitVal (digitCh y4), digitVal v)
          else if u = '1' ∧ '0' ≤ v ∧ v ≤ '2' then
            some (1000 * digitVal (digitCh y1) + 100 * digitVal (digitCh y2) +
              10 * digitVal (digitCh y3) + digitVal (digitCh y4), 10 + digitVal v)
          else none
        else none) := rfl
    rw [hred, if_pos ⟨digitCh_isDigit y1, digitCh_isDigit y2, digitCh_isDigit y3,
      digitCh_isDigit y4⟩]
    by_cases h0 : u = '0' ∧ '1' ≤ v ∧ v ≤ '9'
    · rw [if_pos h0]
      rw [if_pos h0] at hguard
      obtain rfl := Option.some.inj hguard
      rw [digitVal_digitCh, digitVal_digitCh, digitVal_digitCh, digitVal_digitCh]
    · rw [if_neg h0]
      rw [if_neg h0] at hguard
      by_cases h1 : u = '1' ∧ '0' ≤ v ∧ v ≤ '2'
      · rw [if_pos h1]
        rw [if_pos h1] at hguard
        obtain rfl := Option.some.inj hguard
        rw [digitVal_digitCh, digitVal_digitCh, digitVal_digitCh, digitVal_digitCh]
      · rw [if_neg h1] at hguard
        exact Option.noConfusion hguard
  unfold parseMonthChars
  simp only [hstrip, htry1, htry2, htry3]

theorem parse_yyyymm_format (y1 y2 y3 y4 : Fin 10) (m : Fin 12) :
    parseMonthChars (mkYYYYMM y1 y2 y3 y4 m) =
      some (1000 * y1.val + 100 * y2.val + 10 * y3.val + y4.val, m.val + 1) := by
  fin_cases m
  · exact parse_yyyymm_chars y1 y2 y3 y4 '0' '1' 1 (by decide) (by decide)
  · exact parse_yyyymm_chars y1 y2 y3 y4 '0' '2' 2 (by decide) (by decide)
  · exact parse_yyyymm_chars y1 y2 y3 y4 '0' '3' 3 (by decide) (by decide)
  · exact parse_yyyymm_chars y1 y2 y3 y4 '0' '4' 4 (by decide) (by decide)
  · exact parse_yyyymm_chars y1 y2 y3 y4 '0' '5' 5 (by decide) (by decide)
  · exact parse_yyyymm_chars y1 y2 y3 y4 '0' '6' 6 (by decide) (by decide)
  · exact parse_yyyymm_chars y1 y2 y3 y4 '0' '7' 7 (by decide) (by decide)
  · exact parse_yyyymm_chars y1 y2 y3 y4 '0' '8' 8 (by decide) (by decide)
  · exact parse_yyyymm_chars y1 y2 y3 y4 '0' '9' 9 (by decide) (by decide)
  · exact parse_yyyymm_chars y1 y2 y3 y4 '1' '0' 10 (by decide) (by decide)
  · exact parse_yyyymm_chars y1 y2 y3 y4 '1' '1' 11 (by decide) (by decide)
  · exact parse_yyyymm_chars y1 y2 y3 y4 '1' '2' 12 (by decide) (by decide)

/-- C8 (amended): period parsing returns the expected (year, month) pair on
every string in the three supported literal formats; but because the source
matches the `Mon-YY` regex as a PREFIX (trailing characters are ignored),
it also succeeds on strings outside those formats, such as `"Jan-2600"` -
so failure is not equivalent to "matches none of the three formats". -/
theorem claim_C8_parse_accepts_supported_formats :
    (∀ (i : Fin 12) (d1 d2 : Fin 10),
      parse_month_input (String.mk (mkMonYY i d1 d2)) =
        some (2000 + (10 * d1.val + d2.val), i.val + 1)) ∧
    (∀ (i : Fin 12) (y1 y2 y3 y4 : Fin 10),
      parse_month_input (String.mk (mkMonthYYYY i y1 y2 y3 y4)) =
        some (1000 * y1.val + 100 * y2.val + 10 * y3.val + y4.val, i.val + 1)) ∧
    (∀ (y1 y2 y3 y4 : Fin 10) (m : Fin 12),
      parse_month_input (String.mk (mkYYYYMM y1 y2 y3 y4 m)) =
        some (1000 * y1.val + 100 * y2.val + 10 * y3.val + y4.val, m.val + 1)) ∧
    parse_month_input "Jan-2600" = some (2026, 1) := by
  refine ⟨?_, ?_, ?_, by decide⟩
  · intro i d1 d2
    fin_cases i
    · exact parse_monyy_format "Jan".data 1 d1 d2 (by decide) (by decide) (by decide)
        (by decide)
    · exact parse_monyy_format "Feb".data 2 d1 d2 (by decide) (by decide) (by decide)
        (by decide)
    · exact parse_monyy_format "Mar".data 3 d1 d2 (by decide) (by decide) (by decide)
        (by decide)
    · exact parse_monyy_format "Apr".data 4 d1 d2 (by decide) (by decide) (by decide)
        (by decide)
    · exact parse_monyy_format "May".data 5 d1 d2 (by decide) (by decide) (by decide)
        (by decide)
    · exact parse_monyy_format "Jun".data 6 d1 d2 (by decide) (by decide) (by decide)
        (by decide)
    · exact parse_monyy_format "Jul".data 7 d1 d2 (by decide) (by decide) (by decide)
        (by decide)
    · exact parse_monyy_format "Aug".data 8 d1 d2 (by decide) (by decide) (by decide)
        (by decide)
    · exact parse_monyy_format "Sep".data 9 d1 d2 (by decide) (by decide) (by decide)
        (by decide)
    · exact parse_monyy_format "Oct".data 10 d1 d2 (by decide) (by decide) (by decide)
        (by decide)
    · exact parse_monyy_format "Nov".data 11 d1 d2 (by decide) (by decide) (by decide)
        (by decide)
    · exact parse_monyy_format "Dec".data 12 d1 d2 (by decide) (by decide) (by decide)
        (by decide)
  · intro i y1 y2 y3 y4
    fin_cases i
    · exact parse_monthyyyy_format "January".data 1 y1 y2 y3 y4 (by decide) (by decide)
        (by decide) (by decide)
    · exact parse_monthyyyy_format "February".data 2 y1 y2 y3 y4 (by decide) (by decide)
        (by decide) (by decide)
    · exact parse_monthyyyy_format "March".data 3 y1 y2 y3 y4 (by decide) (by decide)
        (by decide) (by decide)
    · exact parse_monthyyyy_format "April".data 4 y1 y2 y3 y4 (by decide) (by decide)
        (by decide) (by decide)
    · exact parse_monthyyyy_format "May".data 5 y1 y2 y3 y4 (by decide) (by decide)
        (by decide) (by decide)
    · exact parse_monthyyyy_format "June".data 6 y1 y2 y3 y4 (by decide) (by decide)
        (by decide) (by decide)
    · exact parse_monthyyyy_format "July".data 7 y1 y2 y3 y4 (by decide) (by decide)
        (by decide) (by decide)
    · exact parse_monthyyyy_format "August".data 8 y1 y2 y3 y4 (by decide) (by decide)
        (by decide) (by decide)
    · exact parse_monthyyyy_format "September".data 9 y1 y2 y3 y4 (by decide) (by decide)
        (by decide) (by decide)
    · exact parse_monthyyyy_format "October".data 10 y1 y2 y3 y4 (by decide) (by decide)
        (by decide) (by decide)
    · exact parse_monthyyyy_format "November".data 11 y1 y2 y3 y4 (by decide) (by decide)
        (by decide) (by decide)
    · exact parse_monthyyyy_format "December".data 12 y1 y2 y3 y4 (by decide) (by decide)
        (by decide) (by decide)
  · intro y1 y2 y3 y4 m
    exact parse_yyyymm_format y1 y2 y3 y4 m

/-- Counterexample to C8 as stated: `"Jan-2600"` matches none of the three
literal formats, yet parsing succeeds (the `Mon-YY` regex matches the
prefix `Jan-26` and the trailing `00` is ignored) - refuting "fails if and
only if the string matches none of those formats". -/
theorem claim_C8_counterexample :
    parse_month_input "Jan-2600" = some (2026, 1) ∧ ¬ specPeriodFormat "Jan-2600" := by
  constructor
  · decide
  · rintro (⟨i, d1, d2, h⟩ | ⟨i, y1, y2, y3, y4, h⟩ | ⟨y1, y2, y3, y4, m, h⟩)
    · rw [show ("Jan-2600".data) = ['J','a','n','-','2','6','0','0'] from rfl] at h
      fin_cases i <;> simp [mkMonYY, monthAbbrevCap] at h
    · rw [show ("Jan-2600".data) = ['J','a','n','-','2','6','0','0'] from rfl] at h
      fin_cases i <;> simp [mkMonthYYYY, monthFullCap] at h
    · have hhead : ("Jan-2600".data).head? = some 'J' := rfl
      rw [h] at hhead
      have hmk : (mkYYYYMM y1 y2 y3 y4 m).head? = some (digitCh y1) := rfl
      rw [hmk] at hhead
      have hd := digitCh_isDigit y1
      rw [Option.some.inj hhead] at hd
      exact absurd hd (by decide)
